import Mathlib

/-!
Shallow embedding of the PostgreSQL schema-snapshot serializer
(`packages/api/src/pg/serializer/snapshot.ts`) of the drizzle-lab
repository, together with theorems settling the frozen claims about it.

Conventions of the embedding:
* JavaScript objects used as ordered string-keyed maps are modelled as
  association lists (`List (String × α)`) with JS property semantics:
  overwriting a key keeps its original position, fresh keys are appended.
* `a ?? b` (nullish coalescing) is `Option.getD`; `a || b` / `a ? a : b`
  on strings (truthiness) is `jsOr`, which treats the empty string as falsy.
* Values produced by external ORM helpers (`dialect.sqlToQuery(x).sql`,
  `sqlToStr`, `pk.getName()`, `fk.getName()`, `Date.toISOString()`,
  `JSON.stringify` of an opaque object) are carried in the input model as
  the already-rendered strings, since the serializer only forwards them.
* Fallible code (`throw new Error(...)`) returns `Except SnapshotError`.
-/

namespace DrizzleSnapshot

/-! ## Association lists with JavaScript object-map semantics -/

/-- Lookup of a key in a JS-style object map. -/
def alGet {α : Type} (m : List (String × α)) (k : String) : Option α :=
  match m with
  | [] => none
  | (k', v) :: rest => if k' = k then some v else alGet rest k

/-- JS-style property assignment: overwrite in place, append if fresh. -/
def alInsert {α : Type} (m : List (String × α)) (k : String) (v : α) :
    List (String × α) :=
  match m with
  | [] => [(k, v)]
  | (k', v') :: rest =>
    if k' = k then (k, v) :: rest else (k', v') :: alInsert rest k v

/-- Apply a function to the value stored at a key, leaving other entries. -/
def alUpdate {α : Type} (m : List (String × α)) (k : String) (f : α → α) :
    List (String × α) :=
  m.map (fun p => if p.1 = k then (p.1, f p.2) else p)

/-- Keys of a JS-style object map, in insertion order. -/
def alKeys {α : Type} (m : List (String × α)) : List String :=
  m.map Prod.fst

/-! ## Generic loop with eager throw

The serializer's `for`/`forEach` loops that may `throw` are modelled by an
explicit fold over `Except`: the first error aborts the whole traversal. -/

def foldE {σ α ε : Type} (f : σ → α → Except ε σ) (st : σ) :
    List α → Except ε σ
  | [] => .ok st
  | a :: l =>
    match f st a with
    | .error e => .error e
    | .ok st' => foldE f st' l

/-! ## JS value and string helpers

String operations are implemented over `List Char` so that every
definition evaluates inside the kernel (the core position-based `String`
loops do not reduce there). The inputs in scope are ASCII, where
character-wise operations agree with JS's UTF-16 code-unit semantics. -/

/-- Single-quote character as a string. -/
def squote : String := String.singleton (Char.ofNat 39)

/-- JS string truthiness for `x ? x : y` and `x || y`: the empty string
(and an absent value) falls back to the default. -/
def jsOr (x : Option String) (y : String) : String :=
  match x with
  | some s => if s = "" then y else s
  | none => y

/-- When `pat` is a prefix of the list, return the remainder. -/
def charsPrefixRest (pat l : List Char) : Option (List Char) :=
  match pat, l with
  | [], rest => some rest
  | _ :: _, [] => none
  | p :: ps, c :: cs => if p = c then charsPrefixRest ps cs else none

def replaceFirstChars (pat rep : List Char) : List Char → List Char
  | [] => (match charsPrefixRest pat [] with
           | some rest => rep ++ rest
           | none => [])
  | c :: cs =>
    match charsPrefixRest pat (c :: cs) with
    | some rest => rep ++ rest
    | none => c :: replaceFirstChars pat rep cs

/-- JS `String.prototype.replace` with a string pattern replaces only the
first occurrence. -/
def replaceFirst (s pat rep : String) : String :=
  String.mk (replaceFirstChars pat.toList rep.toList s.toList)

/-- Replacement of every occurrence of a single character (JS
`replaceAll` with a one-character pattern). -/
def replaceAllChar (c : Char) (rep : String) (s : String) : String :=
  String.mk (s.toList.flatMap (fun d => if d = c then rep.toList else [d]))

/-- The prefix of a string before the first occurrence of a character:
`s.split(c)[0]`. -/
def takeUntilChar (c : Char) (s : String) : String :=
  String.mk (s.toList.takeWhile (fun d => d ≠ c))

/-- JS `slice(0, n)` on an ASCII string. -/
def sliceTo (n : Nat) (s : String) : String :=
  String.mk (s.toList.take n)

/-- Character-wise lower-casing (`toLowerCase` on ASCII). -/
def lowerAscii (s : String) : String :=
  String.mk (s.toList.map Char.toLower)

/-- Kernel-friendly `String.intercalate`. -/
def sintercalate (sep : String) : List String → String
  | [] => ""
  | [x] => x
  | x :: y :: rest => x ++ sep ++ sintercalate sep (y :: rest)

/-- Sequential first-occurrence substitution, as in the casing rewrite
loops for primary-key and foreign-key names. -/
def substituteNames : String → List (String × String) → String
  | name, [] => name
  | name, (o, c) :: rest => substituteNames (replaceFirst name o c) rest

/-- Model of `parseFloat(s) < 0`: negative sign followed by a mantissa with
a nonzero digit. (Exotic inputs such as `"-Infinity"` or exponent underflow
are outside the model; the serializer only ever reaches this with sequence
increments.) Second component: whether a `.` has already been seen. -/
def mantissaNonzero : Bool → List Char → Bool
  | _, [] => false
  | seenDot, c :: rest =>
    if c = '.' then
      if seenDot then false else mantissaNonzero true rest
    else if c.isDigit then
      (c != '0') || mantissaNonzero seenDot rest
    else false

def parseFloatIsNegative (s : String) : Bool :=
  match s.toList.dropWhile Char.isWhitespace with
  | '-' :: rest => mantissaNonzero false rest
  | _ => false

/-! ## JavaScript runtime values reaching the serializer as defaults -/

/-- A JS value that can appear as a column `default`. `date` carries the
`toISOString()` rendering, `obj` carries the `JSON.stringify` rendering of
an opaque object, since the serializer only consumes those forms. -/
inductive JsValue : Type where
  | num (n : Int)
  | bool (b : Bool)
  | str (s : String)
  | date (iso : String)
  | obj (json : String)
  | arr (xs : List JsValue)

/-- Minimal model of `JSON.stringify` string escaping (quote, backslash,
newline; other control characters elided — never produced by the inputs the
claims range over). -/
def jsonEscapeChar (c : Char) : String :=
  if c = '"' then "\\\""
  else if c = '\\' then "\\\\"
  else if c = '\n' then "\\n"
  else String.singleton c

def jsonEscape (s : String) : String :=
  String.join (s.toList.map jsonEscapeChar)

mutual
/-- Model of `JSON.stringify` on the values above. -/
def jsonStringify : JsValue → String
  | .num n => toString n
  | .bool b => if b then "true" else "false"
  | .str s => "\"" ++ jsonEscape s ++ "\""
  | .date iso => "\"" ++ iso ++ "\""
  | .obj json => json
  | .arr xs => "[" ++ sintercalate "," (jsonStringifyList xs) ++ "]"

def jsonStringifyList : List JsValue → List String
  | [] => []
  | v :: rest => jsonStringify v :: jsonStringifyList rest
end

/-! ## Source helpers (`snapshot.ts` lines 45-102) -/

/-- `indexName` (line 45). -/
def indexName (tableName : String) (columns : List String) : String :=
  tableName ++ "_" ++ sintercalate "_" columns ++ "_index"

/-- An identity/sequence option field: a string, a number, or absent. -/
inductive IdentityProperty : Type where
  | str (s : String)
  | num (n : Int)
deriving Repr, DecidableEq

/-- `stringFromIdentityProperty` (line 49): strings pass through, numbers
are stringified, absent stays absent. -/
def stringFromIdentityProperty : Option IdentityProperty → Option String
  | none => none
  | some (.str s) => some s
  | some (.num n) => some (toString n)

/-- `maxRangeForIdentityBasedOn` (line 59). -/
def maxRangeForIdentityBasedOn (columnType : String) : String :=
  if columnType = "integer" then "2147483647"
  else if columnType = "bigint" then "9223372036854775807"
  else "32767"

/-- `minRangeForIdentityBasedOn` (line 67). -/
def minRangeForIdentityBasedOn (columnType : String) : String :=
  if columnType = "integer" then "-2147483648"
  else if columnType = "bigint" then "-9223372036854775808"
  else "-32768"

mutual
/-- One element of `buildArrayString` (lines 77-98). The base SQL type has
already been stripped of its `[` suffix by `buildArrayString`; the source's
recursive call passes the stripped type, on which the strip is idempotent. -/
def buildArrayElem (sqlType : String) : JsValue → String
  | .num n => toString n
  | .bool b => if b then "true" else "false"
  | .arr xs => "\x7b" ++ sintercalate "," (buildArrayList sqlType xs) ++ "\x7d"
  | .date iso =>
    if sqlType = "date" then "\"" ++ takeUntilChar 'T' iso ++ "\""
    else if sqlType = "timestamp" then
      "\"" ++ sliceTo 23 (replaceFirst iso "T" " ") ++ "\""
    else "\"" ++ iso ++ "\""
  | .obj json => "\"" ++ replaceAllChar '"' "\\\"" json ++ "\""
  | .str s => "\"" ++ s ++ "\""

def buildArrayList (sqlType : String) : List JsValue → List String
  | [] => []
  | v :: rest => buildArrayElem sqlType v :: buildArrayList sqlType rest
end

/-- `buildArrayString` (line 75): strip the array suffix from the SQL type,
render every element, and join inside braces. -/
def buildArrayString (array : List JsValue) (sqlType : String) : String :=
  let base := takeUntilChar '[' sqlType
  "\x7b" ++ sintercalate "," (buildArrayList base array) ++ "\x7d"

/-! ## Input model: the `DrizzleObjects` graph

These structures mirror the fields that `drizzleObjectsToSnapshot`
destructures from `getTableConfig` and the other config getters. -/

/-- `identity.sequenceOptions` on a column, and `sequence.seqOptions`. -/
structure InSequenceOptions : Type where
  increment : Option IdentityProperty := none
  minValue : Option IdentityProperty := none
  maxValue : Option IdentityProperty := none
  startWith : Option IdentityProperty := none
  cache : Option IdentityProperty := none
  cycle : Option Bool := none

/-- `column.generatedIdentity`. -/
structure InIdentity : Type where
  type : String
  sequenceName : Option String := none
  sequenceOptions : Option InSequenceOptions := none

/-- A column `default`: either a raw-SQL default (carried as the
`sqlToStr` rendering) or a literal JS value. -/
inductive InDefault : Type where
  | sqlDefault (rendered : String)
  | value (v : JsValue)

/-- One raw column descriptor. `columnType` is the ORM's runtime type tag
(for example `"PgInteger"`, `"PgVector"`); `sqlType` is the result of
`column.getSQLType()` (for example `"integer"`). `generatedAs` carries the
already-rendered generation expression. -/
structure InColumn : Type where
  name : String
  columnType : String
  sqlType : String
  notNull : Bool := false
  primary : Bool := false
  isUnique : Bool := false
  uniqueName : Option String := none
  uniqueType : Option String := none
  generatedAs : Option String := none
  identity : Option InIdentity := none
  defaultVal : Option InDefault := none
  isEnum : Bool := false
  enumSchema : Option String := none

/-- One member of an index: a raw SQL expression (carried as its
`dialect.sqlToQuery(it, "indexes").sql` rendering) or an indexed column
with its per-column index config. -/
structure InIndexedColumn : Type where
  name : String
  type : String
  opClass : Option String := none
  order : Option String := none
  nulls : Option String := none

inductive InIndexMember : Type where
  | sqlExpr (rendered : String)
  | col (c : InIndexedColumn)

/-- One declared index (`value.config`). -/
structure InIndex : Type where
  name : Option String := none
  columns : List InIndexMember
  unique : Option Bool := none
  whereClause : Option String := none
  concurrently : Option Bool := none
  method : Option String := none
  withOpt : Option (List (String × String)) := none

/-- One table-level unique constraint; `columns` holds the referenced
columns' original names. -/
structure InUnique : Type where
  name : Option String := none
  columns : List String
  nullsNotDistinct : Bool := false

/-- One composite primary key; `name` carries the `pk.getName()` result. -/
structure InPrimaryKey : Type where
  name : String
  columns : List String

/-- One foreign key; `name` carries the `fk.getName()` result, the column
lists hold original (pre-casing) names. -/
structure InForeignKey : Type where
  name : String
  foreignTableName : String
  foreignTableSchema : Option String := none
  columnsFrom : List String
  columnsTo : List String
  onDelete : Option String := none
  onUpdate : Option String := none

/-- One check constraint; `value` carries the rendered SQL text. -/
structure InCheck : Type where
  name : String
  value : String

/-- The `to` field of a policy: a plain role name, a structured role
reference, or a list mixing both. -/
inductive PolicyToItem : Type where
  | str (s : String)
  | role (name : String)

inductive PolicyTo : Type where
  | name (s : String)
  | role (name : String)
  | list (xs : List PolicyToItem)

/-- A policy declared inline on a table. `usingSql`/`withCheckSql` carry
the rendered SQL when the corresponding field is a SQL object. -/
structure InTablePolicy : Type where
  name : String
  asClause : Option String := none
  forClause : Option String := none
  toRoles : Option PolicyTo := none
  usingSql : Option String := none
  withCheckSql : Option String := none

/-- The table a standalone policy was linked to (`getTableConfig` of
`policy._linkedTable`): its name and schema. -/
structure InLinkedTable : Type where
  name : String
  schema : Option String := none

/-- A standalone policy, possibly linked to a table via `.link()`. -/
structure InStandalonePolicy : Type where
  name : String
  asClause : Option String := none
  forClause : Option String := none
  toRoles : Option PolicyTo := none
  usingSql : Option String := none
  withCheckSql : Option String := none
  linkedTable : Option InLinkedTable := none

/-- One table descriptor, as destructured from `getTableConfig`. -/
structure InTable : Type where
  name : String
  schema : Option String := none
  columns : List InColumn := []
  indexes : List InIndex := []
  foreignKeys : List InForeignKey := []
  checks : List InCheck := []
  primaryKeys : List InPrimaryKey := []
  uniqueConstraints : List InUnique := []
  policies : List InTablePolicy := []
  enableRLS : Bool := false

structure InSequence : Type where
  seqName : String
  schema : Option String := none
  seqOptions : Option InSequenceOptions := none

structure InRole : Type where
  name : String
  createDb : Option Bool := none
  createRole : Option Bool := none
  inherit : Option Bool := none
  existing : Bool := false

structure InEnum : Type where
  enumName : String
  schema : Option String := none
  enumValues : List String

structure InSchema : Type where
  schemaName : String

structure InRelationItem : Type where
  isMany : Bool
  fieldName : String
  relationName : Option String := none
  referencedTableName : String

structure InRelationConfig : Type where
  dbName : String
  relations : List InRelationItem

/-- The whole input graph. The view and materialized-view collections are
outside the scope of the embedded claims and are omitted. -/
structure DrizzleObjects : Type where
  tables : List InTable := []
  enums : List InEnum := []
  schemas : List InSchema := []
  sequences : List InSequence := []
  roles : List InRole := []
  policies : List InStandalonePolicy := []
  relations : List InRelationConfig := []

/-- The configuration fields the serializer reads. `casing` is the casing
transform policy as a name-to-name function, or `none` for identity. -/
structure Config : Type where
  casing : Option (String → String) := none
  schemaFilter : Option (List String) := none
  projectId : Option String := none
  provider : Option String := none

/-- Modelled from the spec: `getColumnCasing` lives in
`internal/helpers`, which is not part of the excerpt; section 4.2
describes the casing transform as "a function name→name, or identity"
applied to obtain the stored column name. -/
def getColumnCasing (casing : Option (String → String)) (name : String) :
    String :=
  match casing with
  | none => name
  | some f => f name

/-- Modelled from the spec: `uniqueKeyName` is imported from the ORM
(`drizzle-orm/pg-core`); the spec's example `"users_email_unique"` fixes
the pattern `<table>_<col1>_..._unique` over the cased column names. -/
def uniqueKeyName (tableName : String) (columns : List String) : String :=
  tableName ++ "_" ++ sintercalate "_" columns ++ "_unique"

/-- Modelled from the spec: `escapeSingleQuotes` is imported from
`sql/utils`, which is not part of the excerpt; section 4.1 says strings
are quote-escaped, which for PostgreSQL literals doubles single quotes. -/
def escapeSingleQuotes (s : String) : String :=
  replaceAllChar (Char.ofNat 39) (squote ++ squote) s

/-- Modelled from the spec: `isPgArrayType` is imported from `pg/utils`,
which is not part of the excerpt; it recognizes array SQL types such as
`"integer[]"` (a bracketed dimension suffix). -/
def isPgArrayType (sqlType : String) : Bool :=
  sqlType.toList.contains '[' && sqlType.toList.contains ']'

/-! ## Output model: the snapshot entities -/

structure SnapGenerated : Type where
  asText : String
  type : String

structure SnapIdentity : Type where
  type : String
  name : String
  schema : String
  increment : String
  startWith : String
  minValue : String
  maxValue : String
  cache : String
  cycle : Bool

structure SnapColumn : Type where
  name : String
  type : String
  typeSchema : Option String
  primaryKey : Bool
  notNull : Bool
  generated : Option SnapGenerated
  identity : Option SnapIdentity
  defaultVal : Option JsValue

/-- Stored unique-constraint entity. The `name` field stores the raw
declared name (`column.uniqueName!` / `unq.name!`), which in the source
can be `undefined` even though the map key is the resolved name. -/
structure SnapUnique : Type where
  name : Option String
  nullsNotDistinct : Bool
  columns : List String

structure SnapIndexColumn : Type where
  expression : String
  isExpression : Bool
  asc : Bool
  nulls : String
  opclass : Option String

structure SnapIndex : Type where
  name : String
  columns : List SnapIndexColumn
  isUnique : Bool
  whereClause : Option String
  concurrently : Bool
  method : String
  withOpt : List (String × String)

structure SnapPolicy : Type where
  name : String
  asClause : String
  forClause : String
  toRoles : List String
  usingClause : Option String
  withCheck : Option String

/-- A table-unlinked policy as stored in the top-level `policies` map. -/
structure SnapTopPolicy : Type where
  policy : SnapPolicy
  schema : String
  onTable : String

structure SnapCheck : Type where
  name : String
  value : String

structure SnapForeignKey : Type where
  name : String
  tableFrom : String
  tableTo : String
  schemaTo : Option String
  columnsFrom : List String
  columnsTo : List String
  onDelete : Option String
  onUpdate : Option String

structure SnapPrimaryKey : Type where
  name : String
  columns : List String

structure SnapRelation : Type where
  type : String
  fieldName : String
  relationName : String
  referencedTableName : String

structure SnapTable : Type where
  name : String
  schema : String
  columns : List (String × SnapColumn)
  indexes : List (String × SnapIndex)
  foreignKeys : List (String × SnapForeignKey)
  compositePrimaryKeys : List (String × SnapPrimaryKey)
  uniqueConstraints : List (String × SnapUnique)
  policies : List (String × SnapPolicy)
  checkConstraints : List (String × SnapCheck)
  isRLSEnabled : Bool
  relations : List SnapRelation

structure SnapSequence : Type where
  name : String
  schema : String
  increment : String
  startWith : String
  minValue : String
  maxValue : String
  cache : String
  cycle : Bool

structure SnapRole : Type where
  name : String
  createDb : Bool
  createRole : Bool
  inherit : Bool

structure SnapEnum : Type where
  name : String
  schema : String
  values : List String

structure Snapshot : Type where
  version : String
  dialect : String
  tables : List (String × SnapTable)
  enums : List (String × SnapEnum)
  schemas : List (String × String)
  sequences : List (String × SnapSequence)
  roles : List (String × SnapRole)
  policies : List (String × SnapTopPolicy)
  provider : Option String
  projectId : String

/-- The fatal error taxonomy of the serializer. -/
inductive SnapshotError : Type where
  | duplicateUniqueConstraint (tableName key : String)
  | duplicateIndexName (schemaName tableName : String)
  | duplicateCheckConstraint (schemaName tableName key : String)
  | duplicatePolicyName (tableKey policyName : String)
  | missingIndexName (tableName expression : String)
  | missingOperatorClass (columnName tableName : String)
deriving Repr, DecidableEq

/-! ## Identifier and default resolution (`snapshot.ts` lines 186-319) -/

/-- The resolved identity/sequence numeric fields. -/
structure ResolvedSeq : Type where
  increment : String
  minValue : String
  maxValue : String
  startWith : String
  cache : String
deriving Repr, DecidableEq

/-- Resolution of the identity sequence options (lines 198-214): increment
defaults to `"1"`; a negative increment makes minValue default to
`minRangeForIdentityBasedOn(column.columnType)` and maxValue to `"-1"`,
a non-negative one makes minValue default to `"1"` and maxValue to
`maxRangeForIdentityBasedOn(column.getSQLType())`; startWith defaults to
maxValue when descending and minValue when ascending; cache to `"1"`. -/
def resolveSequenceFields (seqOpts : Option InSequenceOptions)
    (columnType sqlType : String) : ResolvedSeq :=
  let increment :=
    (stringFromIdentityProperty (seqOpts.bind (·.increment))).getD "1"
  let minValue :=
    (stringFromIdentityProperty (seqOpts.bind (·.minValue))).getD
      (if parseFloatIsNegative increment
       then minRangeForIdentityBasedOn columnType else "1")
  let maxValue :=
    (stringFromIdentityProperty (seqOpts.bind (·.maxValue))).getD
      (if parseFloatIsNegative increment
       then "-1" else maxRangeForIdentityBasedOn sqlType)
  let startWith :=
    (stringFromIdentityProperty (seqOpts.bind (·.startWith))).getD
      (if parseFloatIsNegative increment then maxValue else minValue)
  let cache :=
    (stringFromIdentityProperty (seqOpts.bind (·.cache))).getD "1"
  { increment, minValue, maxValue, startWith, cache }

/-- Default-value encoding (lines 288-317): SQL defaults pass through as
rendered text; strings are single-quoted with escaping; `json`/`jsonb`
columns JSON-serialize and cast; dates format per target type; arrays on
array-typed columns go through `buildArrayString`; anything else passes
through as the raw value. -/
def encodeDefault (sqlTypeLowered : String) : InDefault → JsValue
  | .sqlDefault rendered => .str rendered
  | .value v =>
    match v with
    | .str s => .str (squote ++ escapeSingleQuotes s ++ squote)
    | _ =>
      if sqlTypeLowered = "jsonb" ∨ sqlTypeLowered = "json" then
        .str (squote ++ jsonStringify v ++ squote ++ "::" ++ sqlTypeLowered)
      else
        match v with
        | .date iso =>
          if sqlTypeLowered = "date" then
            .str (squote ++ takeUntilChar 'T' iso ++ squote)
          else if sqlTypeLowered = "timestamp" then
            .str (squote ++ sliceTo 23 (replaceFirst iso "T" " ") ++ squote)
          else .str (squote ++ iso ++ squote)
        | .arr xs =>
          if isPgArrayType sqlTypeLowered then
            .str (squote ++ buildArrayString xs sqlTypeLowered ++ squote)
          else .arr xs
        | other => other

/-! ## Column mapper (lines 186-319) -/

/-- State threaded through the `columns.forEach` loop. -/
structure ColumnsState : Type where
  columnsObject : List (String × SnapColumn)
  uniqueConstraintObject : List (String × SnapUnique)

/-- Processing of one column: build the column entity (with identity
resolution), register a unique constraint if `isUnique` (failing on a
duplicate name), then encode the default. -/
def processColumn (casing : Option (String → String))
    (tableName : String) (schema : Option String)
    (st : ColumnsState) (column : InColumn) :
    Except SnapshotError ColumnsState :=
  let name := getColumnCasing casing column.name
  let sqlTypeLowered := lowerAscii column.sqlType
  let typeSchema :=
    if column.isEnum then some (jsOr column.enumSchema "public") else none
  let r := resolveSequenceFields (column.identity.bind (·.sequenceOptions))
    column.columnType column.sqlType
  let columnToSet : SnapColumn :=
    { name
      type := column.sqlType
      typeSchema
      primaryKey := column.primary
      notNull := column.notNull
      generated := column.generatedAs.map
        (fun g => { asText := g, type := "stored" })
      identity := column.identity.map (fun idn =>
        { type := idn.type
          name := idn.sequenceName.getD (tableName ++ "_" ++ name ++ "_seq")
          schema := schema.getD "public"
          increment := r.increment
          startWith := r.startWith
          minValue := r.minValue
          maxValue := r.maxValue
          cache := r.cache
          cycle := ((column.identity.bind (·.sequenceOptions)).bind
            (·.cycle)).getD false })
      defaultVal := none }
  let afterUnique : Except SnapshotError (List (String × SnapUnique)) :=
    if column.isUnique then
      let key := column.uniqueName.getD "undefined"
      match alGet st.uniqueConstraintObject key with
      | some _ => .error (.duplicateUniqueConstraint tableName key)
      | none => .ok (alInsert st.uniqueConstraintObject key
          { name := column.uniqueName
            nullsNotDistinct := column.uniqueType = some "not distinct"
            columns := [columnToSet.name] })
    else .ok st.uniqueConstraintObject
  match afterUnique with
  | .error e => .error e
  | .ok uco =>
    let columnToSet :=
      match column.defaultVal with
      | none => columnToSet
      | some d =>
        { columnToSet with defaultVal := some (encodeDefault sqlTypeLowered d) }
    .ok { columnsObject := alInsert st.columnsObject name columnToSet
          uniqueConstraintObject := uco }

/-! ## Constraint mappers (lines 321-411) -/

/-- Processing of one composite primary key (lines 321-336): when a casing
policy is active, every original column name inside the generated name is
substituted (first occurrence) by its cased equivalent. -/
def processPrimaryKey (casing : Option (String → String))
    (m : List (String × SnapPrimaryKey)) (pk : InPrimaryKey) :
    List (String × SnapPrimaryKey) :=
  let columnNames := pk.columns.map (getColumnCasing casing)
  let name :=
    match casing with
    | none => pk.name
    | some _ => substituteNames pk.name (pk.columns.zip columnNames)
  alInsert m name { name, columns := columnNames }

/-- Processing of one declared unique constraint (lines 338-365). -/
def processUnique (casing : Option (String → String)) (tableName : String)
    (m : List (String × SnapUnique)) (unq : InUnique) :
    Except SnapshotError (List (String × SnapUnique)) :=
  let columnNames := unq.columns.map (getColumnCasing casing)
  let name := unq.name.getD (uniqueKeyName tableName columnNames)
  match alGet m name with
  | some _ => .error (.duplicateUniqueConstraint tableName name)
  | none => .ok (alInsert m name
      { name := unq.name
        nullsNotDistinct := unq.nullsNotDistinct
        columns := columnNames })

/-- Mapping of one foreign key (lines 367-407). -/
def mapForeignKey (casing : Option (String → String)) (tableName : String)
    (fk : InForeignKey) : SnapForeignKey :=
  let columnsFrom := fk.columnsFrom.map (getColumnCasing casing)
  let columnsTo := fk.columnsTo.map (getColumnCasing casing)
  let name :=
    match casing with
    | none => fk.name
    | some _ =>
      substituteNames (substituteNames fk.name (fk.columnsFrom.zip columnsFrom))
        (fk.columnsTo.zip columnsTo)
  { name
    tableFrom := tableName
    tableTo := fk.foreignTableName
    schemaTo := fk.foreignTableSchema
    columnsFrom
    columnsTo
    onDelete := fk.onDelete
    onUpdate := fk.onUpdate }

/-! ## Index mapper (lines 413-529) -/

/-- The per-member validation loop (lines 417-465): a SQL-expression
member in an index with no declared name fails; a `PgVector` column member
without an operator class fails; otherwise the member's (cased) column
name is collected. -/
def checkIndexMembers (casing : Option (String → String))
    (tableName : String) (idxName : Option String) :
    List InIndexMember → Except SnapshotError (List String)
  | [] => .ok []
  | .sqlExpr rendered :: rest =>
    if idxName.isNone then .error (.missingIndexName tableName rendered)
    else
      match checkIndexMembers casing tableName idxName rest with
      | .error e => .error e
      | .ok names => .ok ("" :: names)
  | .col c :: rest =>
    let name := getColumnCasing casing c.name
    if c.type = "PgVector" ∧ c.opClass.isNone then
      .error (.missingOperatorClass name tableName)
    else
      match checkIndexMembers casing tableName idxName rest with
      | .error e => .error e
      | .ok names => .ok (name :: names)

/-- Mapping of one index member to its snapshot form (lines 471-495). -/
def mapIndexColumn (casing : Option (String → String)) :
    InIndexMember → SnapIndexColumn
  | .sqlExpr rendered =>
    { expression := rendered
      asc := true
      isExpression := true
      nulls := "last"
      opclass := none }
  | .col c =>
    { expression := getColumnCasing casing c.name
      isExpression := false
      asc := c.order = some "asc"
      nulls := jsOr c.nulls (if c.order = some "desc" then "first" else "last")
      opclass := c.opClass }

/-- The resolved name of one index: the declared name if truthy, else the
auto-generated `indexName` over the collected member names. Fails exactly
when the member validation loop fails. -/
def resolvedIndexName (casing : Option (String → String))
    (tableName : String) (idx : InIndex) : Except SnapshotError String :=
  match checkIndexMembers casing tableName idx.name idx.columns with
  | .error e => .error e
  | .ok names => .ok (jsOr idx.name (indexName tableName names))

/-- State of the `indexes.forEach` loop: the per-table `indexesObject` and
the conversion-wide per-schema name registry `indexesInSchema`. -/
structure IndexesState : Type where
  indexesObject : List (String × SnapIndex)
  indexesInSchema : List (String × List String)

/-- Processing of one index (lines 413-529): validate members, resolve the
name, map the members, check the per-schema duplicate registry, and store
the index entity. -/
def processIndex (casing : Option (String → String)) (tableName : String)
    (schema : Option String) (st : IndexesState) (idx : InIndex) :
    Except SnapshotError IndexesState :=
  match checkIndexMembers casing tableName idx.name idx.columns with
  | .error e => .error e
  | .ok indexColumnNames =>
    let name := jsOr idx.name (indexName tableName indexColumnNames)
    let indexColumns := idx.columns.map (mapIndexColumn casing)
    let schemaKey := schema.getD "public"
    let entry : SnapIndex :=
      { name
        columns := indexColumns
        isUnique := idx.unique.getD false
        whereClause := idx.whereClause
        concurrently := idx.concurrently.getD false
        method := idx.method.getD "btree"
        withOpt := idx.withOpt.getD [] }
    match alGet st.indexesInSchema schemaKey with
    | some names =>
      if name ∈ names then
        .error (.duplicateIndexName schemaKey tableName)
      else
        .ok { indexesObject := alInsert st.indexesObject name entry
              indexesInSchema :=
                alInsert st.indexesInSchema schemaKey (names ++ [name]) }
    | none =>
      .ok { indexesObject := alInsert st.indexesObject name entry
            indexesInSchema := alInsert st.indexesInSchema schemaKey [name] }

/-! ## Policy mapper (lines 531-579 and 654-733) -/

/-- Resolution of a policy's target roles (lines 532-550 and 670-688). -/
def mappedToOf : Option PolicyTo → List String
  | none => ["public"]
  | some (.name s) => if s = "" then ["public"] else [s]
  | some (.role r) => [r]
  | some (.list xs) =>
    xs.map (fun it =>
      match it with
      | .str s => s
      | .role r => r)

/-- Lexicographic code-point comparison on strings, matching the JS
default sort comparator on the ASCII role names in scope. -/
def strLeChars : List Char → List Char → Bool
  | [], _ => true
  | _ :: _, [] => false
  | a :: as, b :: bs =>
    if a = b then strLeChars as bs else decide (a < b)

def strLe (a b : String) : Bool :=
  strLeChars a.toList b.toList

/-- Lexicographic insertion sort modelling `Array.prototype.sort()` on the
role names (JS compares strings; the inputs here stay within ASCII where
UTF-16 code-unit order and code-point order agree). -/
def insertSorted (x : String) : List String → List String
  | [] => [x]
  | y :: ys => if strLe x y then x :: y :: ys else y :: insertSorted x ys

def sortStrings (l : List String) : List String :=
  l.foldr insertSorted []

/-- The snapshot policy entity built from declared fields (both insertion
paths build the same shape, lines 567-578 and 711-722). -/
def mkSnapPolicy (name : String) (asClause forClause : Option String)
    (toRoles : Option PolicyTo) (usingSql withCheckSql : Option String) :
    SnapPolicy :=
  { name
    asClause := (asClause.map String.toUpper).getD "PERMISSIVE"
    forClause := (forClause.map String.toUpper).getD "ALL"
    toRoles := sortStrings (mappedToOf toRoles)
    usingClause := usingSql
    withCheck := withCheckSql }

/-- Processing of one policy declared inline on a table (lines 531-579):
the duplicate check is against the table's own `policiesObject` only. -/
def processTablePolicy (tableKey : String)
    (m : List (String × SnapPolicy)) (policy : InTablePolicy) :
    Except SnapshotError (List (String × SnapPolicy)) :=
  match alGet m policy.name with
  | some _ => .error (.duplicatePolicyName tableKey policy.name)
  | none => .ok (alInsert m policy.name
      (mkSnapPolicy policy.name policy.asClause policy.forClause
        policy.toRoles policy.usingSql policy.withCheckSql))

/-! ## Check-constraint mapper (lines 581-619) -/

/-- State of the `checks.forEach` loop: the `checksObject` and the
per-table registry `checksInTable` (keyed by the quoted qualified name). -/
structure ChecksState : Type where
  checksObject : List (String × SnapCheck)
  checksInTable : List (String × List String)

def processCheck (schema : Option String) (tableName : String)
    (st : ChecksState) (check : InCheck) :
    Except SnapshotError ChecksState :=
  let key := "\"" ++ schema.getD "public" ++ "\".\"" ++ tableName ++ "\""
  let afterRegistry : Except SnapshotError (List (String × List String)) :=
    match alGet st.checksInTable key with
    | some names =>
      if check.name ∈ names then
        .error (.duplicateCheckConstraint (schema.getD "public") tableName
          check.name)
      else .ok (alInsert st.checksInTable key (names ++ [check.name]))
    | none => .ok (alInsert st.checksInTable key [check.name])
  match afterRegistry with
  | .error e => .error e
  | .ok reg =>
    .ok { checksObject := alInsert st.checksObject check.name
            { name := check.name, value := check.value }
          checksInTable := reg }

/-! ## Table assembler (lines 154-652) -/

/-- The ORM-level relations attached to a table (lines 626-635). -/
def relationsFor (relations : List InRelationConfig) (tableName : String) :
    List SnapRelation :=
  (relations.filter (fun r => r.dbName = tableName)).flatMap
    (fun config => config.relations.map (fun r =>
      { type := if r.isMany then "many" else "one"
        fieldName := r.fieldName
        relationName := jsOr r.relationName r.fieldName
        referencedTableName := r.referencedTableName }))

/-- Whether the schema filter skips this table (lines 172-174). -/
def skippedByFilter (schemaFilter : Option (List String)) (t : InTable) :
    Bool :=
  match schemaFilter with
  | some f => !(f.contains (t.schema.getD "public"))
  | none => false

/-- State of the `for (const table of tables)` loop. -/
structure TablesState : Type where
  result : List (String × SnapTable)
  indexesInSchema : List (String × List String)

/-- The qualified map key of a table (line 621). -/
def tableKeyOf (schema : Option String) (name : String) : String :=
  schema.getD "public" ++ "." ++ name

/-- Processing of one table (lines 154-652): schema filtering, then the
column, primary-key, unique, foreign-key, index, policy and check loops,
then insertion under the qualified key. -/
def processTable (cfg : Config) (relations : List InRelationConfig)
    (st : TablesState) (table : InTable) :
    Except SnapshotError TablesState :=
  if skippedByFilter cfg.schemaFilter table then .ok st
  else
    match foldE (processColumn cfg.casing table.name table.schema)
        { columnsObject := [], uniqueConstraintObject := [] } table.columns with
    | .error e => .error e
    | .ok colsRes =>
      let primaryKeysObject :=
        table.primaryKeys.foldl (processPrimaryKey cfg.casing) []
      match foldE (processUnique cfg.casing table.name)
          colsRes.uniqueConstraintObject table.uniqueConstraints with
      | .error e => .error e
      | .ok uniqueConstraintObject =>
        let foreignKeysObject :=
          (table.foreignKeys.map (mapForeignKey cfg.casing table.name)).foldl
            (fun m fk => alInsert m fk.name fk) []
        match foldE (processIndex cfg.casing table.name table.schema)
            { indexesObject := [], indexesInSchema := st.indexesInSchema }
            table.indexes with
        | .error e => .error e
        | .ok idxRes =>
          let tableKey := tableKeyOf table.schema table.name
          match foldE (processTablePolicy tableKey) [] table.policies with
          | .error e => .error e
          | .ok policiesObject =>
            match foldE (processCheck table.schema table.name)
                { checksObject := [], checksInTable := [] } table.checks with
            | .error e => .error e
            | .ok checksRes =>
              .ok { result := alInsert st.result tableKey
                      { name := table.name
                        schema := table.schema.getD ""
                        columns := colsRes.columnsObject
                        indexes := idxRes.indexesObject
                        foreignKeys := foreignKeysObject
                        compositePrimaryKeys := primaryKeysObject
                        uniqueConstraints := uniqueConstraintObject
                        policies := policiesObject
                        checkConstraints := checksRes.checksObject
                        isRLSEnabled := table.enableRLS
                        relations := relationsFor relations table.name }
                    indexesInSchema := idxRes.indexesInSchema }

/-! ## Standalone policies (lines 654-733) -/

/-- The diagnostic emitted when a standalone policy has no linked table
(lines 657-661). -/
def unlinkedPolicyMsg (name : String) : String :=
  "Policy " ++ name ++
    " was skipped because it was not linked to any table"

/-- State of the standalone-policies loop: the tables map (policies can be
added to existing tables) and the top-level `policiesToReturn`. -/
structure PoliciesState : Type where
  result : List (String × SnapTable)
  policiesToReturn : List (String × SnapTopPolicy)

/-- Processing of one linked standalone policy (lines 664-732): the
duplicate check is against the linked table's policies map and the
top-level map; the entity goes into the linked table when it exists in the
result, else into the top-level map with `schema`/`on` fields. -/
def linkPolicy (st : PoliciesState) (policy : InStandalonePolicy)
    (lt : InLinkedTable) : Except SnapshotError PoliciesState :=
  let tableKey := tableKeyOf lt.schema lt.name
  if (((alGet st.result tableKey).bind
        (fun t => alGet t.policies policy.name)).isSome
      || (alGet st.policiesToReturn policy.name).isSome) then
    .error (.duplicatePolicyName tableKey policy.name)
  else
    let mappedPolicy := mkSnapPolicy policy.name policy.asClause
      policy.forClause policy.toRoles policy.usingSql policy.withCheckSql
    match alGet st.result tableKey with
    | some _ =>
      .ok { st with result := (alUpdate st.result tableKey
              (fun t => { t with
                policies := alInsert t.policies policy.name mappedPolicy })) }
    | none =>
      .ok { st with policiesToReturn :=
              (alInsert st.policiesToReturn policy.name
                { policy := mappedPolicy
                  schema := lt.schema.getD "public"
                  onTable := "\"" ++ lt.schema.getD "public" ++ "\".\"" ++
                    lt.name ++ "\"" }) }

/-- The `for (const policy of policies)` loop (lines 654-733), threading
the non-fatal diagnostics for unlinked policies. -/
def processPoliciesLoop (st : PoliciesState) (warns : List String) :
    List InStandalonePolicy →
    Except SnapshotError (PoliciesState × List String)
  | [] => .ok (st, warns)
  | policy :: rest =>
    match policy.linkedTable with
    | none =>
      processPoliciesLoop st (warns ++ [unlinkedPolicyMsg policy.name]) rest
    | some lt =>
      match linkPolicy st policy lt with
      | .error e => .error e
      | .ok st' => processPoliciesLoop st' warns rest

/-! ## Sequences, roles, enums, schemas (lines 735-1024) -/

/-- Folding of one sequence (lines 735-768): keyed by qualified name,
duplicates silently keep the first; note the fixed 64-bit default bounds
here, unlike the per-column identity resolution. -/
def processSequence (m : List (String × SnapSequence))
    (sequence : InSequence) : List (String × SnapSequence) :=
  let name := sequence.seqName
  let key := sequence.schema.getD "public" ++ "." ++ name
  match alGet m key with
  | some _ => m
  | none =>
    let increment :=
      (stringFromIdentityProperty (sequence.seqOptions.bind
        (·.increment))).getD "1"
    let minValue :=
      (stringFromIdentityProperty (sequence.seqOptions.bind
        (·.minValue))).getD
        (if parseFloatIsNegative increment then "-9223372036854775808"
         else "1")
    let maxValue :=
      (stringFromIdentityProperty (sequence.seqOptions.bind
        (·.maxValue))).getD
        (if parseFloatIsNegative increment then "-1"
         else "9223372036854775807")
    let startWith :=
      (stringFromIdentityProperty (sequence.seqOptions.bind
        (·.startWith))).getD
        (if parseFloatIsNegative increment then maxValue else minValue)
    let cache :=
      (stringFromIdentityProperty (sequence.seqOptions.bind
        (·.cache))).getD "1"
    alInsert m key
      { name
        schema := sequence.schema.getD "public"
        increment, startWith, minValue, maxValue, cache
        cycle := (sequence.seqOptions.bind (·.cycle)).getD false }

/-- Folding of one role (lines 770-784): roles marked existing are
skipped. -/
def processRole (m : List (String × SnapRole)) (role : InRole) :
    List (String × SnapRole) :=
  if role.existing then m
  else alInsert m role.name
    { name := role.name
      createDb := role.createDb.getD false
      createRole := role.createRole.getD false
      inherit := role.inherit.getD true }

/-- The enums fold (lines 999-1010): keyed by qualified name, plain map
overwrite (last write wins). -/
def processEnums (enums : List InEnum) : List (String × SnapEnum) :=
  enums.foldl (fun m obj =>
    let enumSchema := jsOr obj.schema "public"
    let key := enumSchema ++ "." ++ obj.enumName
    alInsert m key
      { name := obj.enumName, schema := enumSchema
        values := obj.enumValues }) []

/-- The schemas object (lines 1012-1024): non-`public` schema names,
restricted to the filter when one is configured. -/
def schemasObjectOf (schemaFilter : Option (List String))
    (schemas : List InSchema) : List (String × String) :=
  (schemas.filter (fun it =>
    match schemaFilter with
    | some f => f.contains it.schemaName && it.schemaName ≠ "public"
    | none => it.schemaName ≠ "public")).foldl
    (fun m it => alInsert m it.schemaName it.schemaName) []

/-! ## Top-level snapshot builder (lines 126-1051) -/

/-- `drizzleObjectsToSnapshot`: the whole conversion, returning the
snapshot together with the non-fatal diagnostics emitted along the way, or
the first fatal error. -/
def drizzleObjectsToSnapshot (objs : DrizzleObjects) (config : Config) :
    Except SnapshotError (Snapshot × List String) :=
  let projectId := jsOr config.projectId "drizzle-lab"
  match foldE (processTable config objs.relations)
      { result := [], indexesInSchema := [] } objs.tables with
  | .error e => .error e
  | .ok tablesState =>
    match processPoliciesLoop
        { result := tablesState.result, policiesToReturn := [] } []
        objs.policies with
    | .error e => .error e
    | .ok (polState, warns) =>
      let sequencesToReturn := objs.sequences.foldl processSequence []
      let rolesToReturn := objs.roles.foldl processRole []
      let enumsToReturn := processEnums objs.enums
      let schemasObject := schemasObjectOf config.schemaFilter objs.schemas
      .ok ({ version := "7"
             dialect := "postgresql"
             tables := polState.result
             enums := enumsToReturn
             schemas := schemasObject
             sequences := sequencesToReturn
             roles := rolesToReturn
             policies := polState.policiesToReturn
             provider := config.provider
             projectId }, warns)

/-! ## Derived observers and claim-specific inputs -/

/-- The snapshot of a successful conversion. -/
def okSnapshot (r : Except SnapshotError (Snapshot × List String)) :
    Option Snapshot :=
  match r with
  | .ok (s, _) => some s
  | .error _ => none

def isSqlMember : InIndexMember → Bool
  | .sqlExpr _ => true
  | .col _ => false

def isVectorWithoutOpclass : InIndexMember → Bool
  | .sqlExpr _ => false
  | .col c => decide (c.type = "PgVector") && c.opClass.isNone

/-- The name collected for a member by the validation loop (the source
applies `getColumnCasing` to the raw SQL object as well, which yields the
empty string there). -/
def memberColumnName (casing : Option (String → String)) :
    InIndexMember → String
  | .sqlExpr _ => ""
  | .col c => getColumnCasing casing c.name

/-- Whether one index member passes the validation loop for an index with
the given declared name. -/
def memberPasses (idxName : Option String) (m : InIndexMember) : Bool :=
  match m with
  | .sqlExpr _ => idxName.isSome
  | .col c => !(decide (c.type = "PgVector") && c.opClass.isNone)

/-- The map key a column-level unique constraint resolves to (a JS object
key stringifies an `undefined` name to `"undefined"`). -/
def columnUniqueKey (c : InColumn) : String :=
  c.uniqueName.getD "undefined"

/-- The map key a declared unique constraint resolves to. -/
def uniqueConstraintKey (casing : Option (String → String))
    (tableName : String) (u : InUnique) : String :=
  u.name.getD (uniqueKeyName tableName (u.columns.map (getColumnCasing casing)))

/-- All unique-constraint names of one table, in processing order: the
column-level ones first, then the declared ones. -/
def tableUniqueNames (casing : Option (String → String)) (t : InTable) :
    List String :=
  (t.columns.filter (·.isUnique)).map columnUniqueKey
    ++ t.uniqueConstraints.map (uniqueConstraintKey casing t.name)

/-- The PostgreSQL schema a table's collision registries are keyed by. -/
def schemaKeyOf (t : InTable) : String :=
  t.schema.getD "public"

/-- The names recorded in the per-schema index registry for one schema. -/
def lookupNames (reg : List (String × List String)) (sk : String) :
    List String :=
  (alGet reg sk).getD []

/-- Growth order on index registries: every recorded name stays. -/
def regLE (r1 r2 : List (String × List String)) : Prop :=
  ∀ sk n, n ∈ lookupNames r1 sk → n ∈ lookupNames r2 sk

/-- The default (empty) configuration. -/
def cfg0 : Config := {}

/-- Two tables, each declaring an inline policy named `"p"`. -/
def policyP : InTablePolicy := { name := "p" }

def objsTwoTablesSamePolicy : DrizzleObjects :=
  { tables := [{ name := "t1", policies := [policyP] },
               { name := "t2", policies := [policyP] }] }

/-- A 32-bit integer identity column with explicit increment `"-1"` and
the other sequence options unspecified. -/
def seqOptsDescending : InSequenceOptions :=
  { increment := some (.str "-1") }

def colDescendingIdentity : InColumn :=
  { name := "id"
    columnType := "integer"
    sqlType := "integer"
    identity := some { type := "always"
                       sequenceOptions := some seqOptsDescending } }

/-- An explicitly named single-column index on a text column. -/
def idxNamed : InIndex :=
  { name := some "idx1"
    columns := [.col { name := "a", type := "PgText" }] }

/-- The same index name `"idx1"` in two different schemas. -/
def objsSameIndexTwoSchemas : DrizzleObjects :=
  { tables := [{ name := "t1", schema := some "s1", indexes := [idxNamed] },
               { name := "t2", schema := some "s2", indexes := [idxNamed] }] }

/-- The same index name `"idx1"` on two tables of the `public` schema. -/
def objsSameIndexOneSchema : DrizzleObjects :=
  { tables := [{ name := "t1", indexes := [idxNamed] },
               { name := "t2", indexes := [idxNamed] }] }

/-- An unnamed two-column index, as in the spec's `users_a_b_index`. -/
def idxAuto : InIndex :=
  { columns := [.col { name := "a", type := "PgText" },
                .col { name := "b", type := "PgText" }] }

/-- An unnamed index over a raw SQL expression. -/
def idxSqlNoName : InIndex :=
  { columns := [.sqlExpr "lower(a)"] }

/-- A named index over a vector column without an operator class, and the
same with one. -/
def idxVectorNoOp : InIndex :=
  { name := some "v"
    columns := [.col { name := "emb", type := "PgVector" }] }

def idxVectorWithOp : InIndex :=
  { name := some "v"
    columns := [.col { name := "emb"
                       type := "PgVector"
                       opClass := some "vector_cosine_ops" }] }

/-- Two unique constraints resolving to `"users_email_unique"` on one
table. -/
def tableDupUnique : InTable :=
  { name := "users"
    uniqueConstraints := [{ name := some "users_email_unique"
                            columns := ["email"] },
                          { name := some "users_email_unique"
                            columns := ["alt_email"] }] }

def objsDupUnique : DrizzleObjects := { tables := [tableDupUnique] }

/-- An integer-array column with default `[1,2,3]`. -/
def colArrayDefault : InColumn :=
  { name := "nums"
    columnType := "PgArray"
    sqlType := "integer[]"
    defaultVal := some (.value (.arr [.num 1, .num 2, .num 3])) }

/-- A standalone policy with no linked table. -/
def objsUnlinkedPolicy : DrizzleObjects :=
  { policies := [{ name := "lonely" }] }

/-- A table in schema `tenant_a`, with a `["public"]` schema filter. -/
def objsTenantTable : DrizzleObjects :=
  { tables := [{ name := "t", schema := some "tenant_a" }] }

def cfgPublicOnly : Config := { schemaFilter := some ["public"] }

/-- A schema-less table and a table with an explicit schema. -/
def objsSchemaKey : DrizzleObjects :=
  { tables := [{ name := "users" }, { name := "users2", schema := some "s1" }] }

/-! # Theorems

First the generic lemmas about JS-style maps and the throwing fold, then
one section per claim. -/

theorem alGet_alInsert_self {α : Type} (m : List (String × α)) (k : String)
    (v : α) : alGet (alInsert m k v) k = some v := by
  induction m with
  | nil => simp [alInsert, alGet]
  | cons p rest ih =>
    obtain ⟨k', v'⟩ := p
    by_cases h : k' = k
    · simp [alInsert, alGet, h]
    · simp [alInsert, alGet, h, ih]

theorem alGet_alInsert_ne {α : Type} (m : List (String × α)) (k k' : String)
    (v : α) (h : k' ≠ k) : alGet (alInsert m k v) k' = alGet m k' := by
  have hne : ¬ k = k' := fun hh => h hh.symm
  induction m with
  | nil => simp [alInsert, alGet, hne]
  | cons p rest ih =>
    obtain ⟨a, b⟩ := p
    by_cases ha : a = k
    · subst ha
      simp [alInsert, alGet, hne]
    · simp [alInsert, alGet, ha, ih]

theorem alGet_eq_none_iff {α : Type} (m : List (String × α)) (k : String) :
    alGet m k = none ↔ k ∉ alKeys m := by
  induction m with
  | nil => simp [alGet, alKeys]
  | cons p rest ih =>
    obtain ⟨a, b⟩ := p
    by_cases ha : a = k
    · simp [alGet, alKeys, ha]
    · have hka : ¬ k = a := fun hh => ha hh.symm
      simp [alGet, alKeys, ha, ih, hka]

theorem alKeys_alInsert_fresh {α : Type} (m : List (String × α))
    (k : String) (v : α) (h : alGet m k = none) :
    alKeys (alInsert m k v) = alKeys m ++ [k] := by
  induction m with
  | nil => simp [alInsert, alKeys]
  | cons p rest ih =>
    obtain ⟨a, b⟩ := p
    by_cases ha : a = k
    · simp [alGet, ha] at h
    · simp only [alGet, if_neg ha] at h
      simp [alInsert, alKeys, ha]
      simpa [alKeys] using ih h

theorem foldE_ok_split {σ α ε : Type} (f : σ → α → Except ε σ)
    (l1 : List α) (x : α) (l2 : List α) (st out : σ)
    (h : foldE f st (l1 ++ x :: l2) = .ok out) :
    ∃ st1 st2, foldE f st l1 = .ok st1 ∧ f st1 x = .ok st2 ∧
      foldE f st2 l2 = .ok out := by
  induction l1 generalizing st with
  | nil =>
    simp only [List.nil_append, foldE] at h
    split at h
    · exact absurd h (by simp)
    · next st2 hf => exact ⟨st, st2, rfl, hf, h⟩
  | cons a l ih =>
    simp only [List.cons_append, foldE] at h
    split at h
    · exact absurd h (by simp)
    · next st' hf =>
      obtain ⟨st1, st2, h1, h2, h3⟩ := ih st' h
      refine ⟨st1, st2, ?_, h2, h3⟩
      simp [foldE, hf, h1]

theorem foldE_growth {σ α ε : Type} (f : σ → α → Except ε σ)
    (R : σ → σ → Prop) (hrefl : ∀ s, R s s)
    (htrans : ∀ a b c, R a b → R b c → R a c)
    (hstep : ∀ s a s', f s a = .ok s' → R s s') :
    ∀ (l : List α) (st out : σ), foldE f st l = .ok out → R st out := by
  intro l
  induction l with
  | nil =>
    intro st out h
    simp only [foldE] at h
    cases h
    exact hrefl st
  | cons a rest ih =>
    intro st out h
    simp only [foldE] at h
    split at h
    · exact absurd h (by simp)
    · next st' hf => exact htrans _ _ _ (hstep st a st' hf) (ih st' out h)

theorem foldE_skip_mid {σ α ε : Type} (f : σ → α → Except ε σ) (x : α)
    (hx : ∀ s, f s x = .ok s) (l1 l2 : List α) (st : σ) :
    foldE f st (l1 ++ x :: l2) = foldE f st (l1 ++ l2) := by
  induction l1 generalizing st with
  | nil => simp [foldE, hx st]
  | cons a l ih =>
    simp only [List.cons_append, foldE]
    cases f st a with
    | error e => rfl
    | ok st' => exact ih st'

/-! ## Claim C2 — identity sequence defaults -/

/-- Claim C2, counterexample: for the 32-bit integer identity column with
explicit increment `"-1"` and the other options unspecified, the resolved
identity spec has `minValue = "-2147483648"`, `maxValue = "-1"` and
`startWith = "-1"`; the claim asserts `startWith` equals the minValue,
but `"-1" ≠ "-2147483648"`. -/
theorem c2_counterexample :
    (((processColumn none "accounts" none ⟨[], []⟩
        colDescendingIdentity).toOption.bind
      (fun st => (alGet st.columnsObject "id").bind (fun c => c.identity))).map
        (fun i => (i.minValue, i.maxValue, i.startWith)))
      = some ("-2147483648", "-1", "-1")
    ∧ ("-1" : String) ≠ "-2147483648" := ⟨rfl, by decide⟩

/-- Claim C2, amended: with increment, minValue, maxValue and startWith
unspecified, the resolved fields are increment `"1"`, minValue `"1"`,
startWith `"1"`, and maxValue the positive bound of the column's SQL type
(`"2147483647"` for `integer`, `"9223372036854775807"` for `bigint`,
`"32767"` otherwise); with explicit increment `"-1"` and the other three
unspecified, minValue defaults to `minRangeForIdentityBasedOn` applied to
the column's runtime type tag, maxValue is `"-1"`, and startWith equals
the maxValue `"-1"` (not the minValue). -/
theorem c2_identity_defaults :
    (∀ (seqOpts : Option InSequenceOptions) (columnType sqlType : String),
      seqOpts.bind (·.increment) = none →
      seqOpts.bind (·.minValue) = none →
      seqOpts.bind (·.maxValue) = none →
      seqOpts.bind (·.startWith) = none →
      resolveSequenceFields seqOpts columnType sqlType
        = { increment := "1"
            minValue := "1"
            maxValue := maxRangeForIdentityBasedOn sqlType
            startWith := "1"
            cache := (stringFromIdentityProperty
              (seqOpts.bind (·.cache))).getD "1" })
  ∧ (∀ (seqOpts : Option InSequenceOptions) (columnType sqlType : String),
      seqOpts.bind (·.increment) = some (.str "-1") →
      seqOpts.bind (·.minValue) = none →
      seqOpts.bind (·.maxValue) = none →
      seqOpts.bind (·.startWith) = none →
      resolveSequenceFields seqOpts columnType sqlType
        = { increment := "-1"
            minValue := minRangeForIdentityBasedOn columnType
            maxValue := "-1"
            startWith := "-1"
            cache := (stringFromIdentityProperty
              (seqOpts.bind (·.cache))).getD "1" })
  ∧ maxRangeForIdentityBasedOn "integer" = "2147483647"
  ∧ maxRangeForIdentityBasedOn "bigint" = "9223372036854775807"
  ∧ (∀ t, t ≠ "integer" → t ≠ "bigint" →
      maxRangeForIdentityBasedOn t = "32767")
  ∧ minRangeForIdentityBasedOn "integer" = "-2147483648"
  ∧ minRangeForIdentityBasedOn "bigint" = "-9223372036854775808"
  ∧ (∀ t, t ≠ "integer" → t ≠ "bigint" →
      minRangeForIdentityBasedOn t = "-32768") := by
  refine ⟨?_, ?_, rfl, rfl, ?_, rfl, rfl, ?_⟩
  · intro seqOpts ct st h1 h2 h3 h4
    simp [resolveSequenceFields, h1, h2, h3, h4, stringFromIdentityProperty,
      (by decide : parseFloatIsNegative "1" = false)]
  · intro seqOpts ct st h1 h2 h3 h4
    simp [resolveSequenceFields, h1, h2, h3, h4, stringFromIdentityProperty,
      (by decide : parseFloatIsNegative "-1" = true)]
  · intro t h1 h2
    simp [maxRangeForIdentityBasedOn, h1, h2]
  · intro t h1 h2
    simp [minRangeForIdentityBasedOn, h1, h2]

/-- Witness for `c2_identity_defaults` at concrete inputs. -/
theorem c2_identity_defaults_witness :
    resolveSequenceFields (some seqOptsDescending) "integer" "integer"
      = { increment := "-1"
          minValue := "-2147483648"
          maxValue := "-1"
          startWith := "-1"
          cache := "1" }
    ∧ resolveSequenceFields none "ignored" "bigint"
      = { increment := "1"
          minValue := "1"
          maxValue := "9223372036854775807"
          startWith := "1"
          cache := "1" } := by
  constructor
  · have h := c2_identity_defaults.2.1 (some seqOptsDescending)
      "integer" "integer" rfl rfl rfl rfl
    rw [h]; decide
  · have h := c2_identity_defaults.1 none "ignored" "bigint" rfl rfl rfl rfl
    rw [h]; decide

/-! ## Index member validation lemmas (for C5 and C6) -/

theorem checkIndexMembers_all_pass (casing : Option (String → String))
    (tableName : String) (idxName : Option String) (l : List InIndexMember)
    (h : ∀ m ∈ l, memberPasses idxName m = true) :
    checkIndexMembers casing tableName idxName l
      = .ok (l.map (memberColumnName casing)) := by
  induction l with
  | nil => rfl
  | cons m rest ih =>
    have hm := h m (List.mem_cons_self m rest)
    have hrest : ∀ x ∈ rest, memberPasses idxName x = true :=
      fun x hx => h x (List.mem_cons_of_mem m hx)
    cases m with
    | sqlExpr r =>
      simp only [memberPasses] at hm
      cases idxName with
      | none => simp at hm
      | some nm => simp [checkIndexMembers, ih hrest, memberColumnName]
    | col c =>
      simp only [memberPasses] at hm
      have hcond : ¬ (c.type = "PgVector" ∧ c.opClass.isNone = true) :=
        fun hand => by simp [hand.1, hand.2] at hm
      simp only [checkIndexMembers]
      rw [if_neg hcond, ih hrest]
      simp [memberColumnName]

theorem checkIndexMembers_sql_noname (casing : Option (String → String))
    (tableName : String) (l : List InIndexMember)
    (hsql : l.any isSqlMember = true)
    (hvec : ∀ m ∈ l, isVectorWithoutOpclass m = false) :
    ∃ r, checkIndexMembers casing tableName none l
      = .error (.missingIndexName tableName r) := by
  induction l with
  | nil => simp at hsql
  | cons m rest ih =>
    cases m with
    | sqlExpr r => exact ⟨r, by simp [checkIndexMembers]⟩
    | col c =>
      have hm := hvec _ (List.mem_cons_self _ _)
      simp only [isVectorWithoutOpclass] at hm
      have hcond : ¬ (c.type = "PgVector" ∧ c.opClass.isNone = true) :=
        fun hand => by simp [hand.1, hand.2] at hm
      have hsql' : rest.any isSqlMember = true := by
        simpa [isSqlMember] using hsql
      obtain ⟨r, hr⟩ :=
        ih hsql' (fun x hx => hvec x (List.mem_cons_of_mem _ hx))
      refine ⟨r, ?_⟩
      simp only [checkIndexMembers]
      rw [if_neg hcond, hr]

theorem checkIndexMembers_vector_offender (casing : Option (String → String))
    (tableName : String) (idxName : Option String) (l : List InIndexMember)
    (hnames : ∀ m ∈ l, isSqlMember m = true → idxName.isSome = true)
    (hvec : l.any isVectorWithoutOpclass = true) :
    ∃ cn, checkIndexMembers casing tableName idxName l
      = .error (.missingOperatorClass cn tableName) := by
  induction l with
  | nil => simp at hvec
  | cons m rest ih =>
    cases m with
    | sqlExpr r =>
      have hs := hnames _ (List.mem_cons_self _ _) rfl
      have hvec' : rest.any isVectorWithoutOpclass = true := by
        simpa [isVectorWithoutOpclass] using hvec
      obtain ⟨cn, hcn⟩ :=
        ih (fun x hx hsx => hnames x (List.mem_cons_of_mem _ hx) hsx) hvec'
      cases idxName with
      | none => simp at hs
      | some nm => exact ⟨cn, by simp [checkIndexMembers, hcn]⟩
    | col c =>
      by_cases hoff : isVectorWithoutOpclass (.col c) = true
      · simp only [isVectorWithoutOpclass] at hoff
        have hcond : c.type = "PgVector" ∧ c.opClass.isNone = true := by
          simpa using hoff
        refine ⟨getColumnCasing casing c.name, ?_⟩
        simp only [checkIndexMembers]
        rw [if_pos hcond]
      · have hvec' : rest.any isVectorWithoutOpclass = true := by
          simp only [List.any_cons, Bool.or_eq_true] at hvec
          rcases hvec with hv | hv
          · exact absurd hv hoff
          · exact hv
        have hm : isVectorWithoutOpclass (.col c) = false := by
          simpa using hoff
        simp only [isVectorWithoutOpclass] at hm
        have hcond : ¬ (c.type = "PgVector" ∧ c.opClass.isNone = true) :=
          fun hand => by simp [hand.1, hand.2] at hm
        obtain ⟨cn, hcn⟩ :=
          ih (fun x hx hsx => hnames x (List.mem_cons_of_mem _ hx) hsx) hvec'
        refine ⟨cn, ?_⟩
        simp only [checkIndexMembers]
        rw [if_neg hcond, hcn]

/-! ## Claim C5 — vector indexes require an operator class -/

/-- Claim C5: an index containing a `PgVector` column member without an
operator class fails with the missing-operator-class error (whenever no
missing-index-name error preempts it, i.e. any SQL-expression member is
covered by a declared name); when every member passes validation — in
particular every vector member has an operator class — and the resolved
name does not collide in the schema registry, processing the index
succeeds. -/
theorem c5_vector_operator_class :
    (∀ (casing : Option (String → String)) (tableName : String)
       (schema : Option String) (st : IndexesState) (idx : InIndex),
      (∀ m ∈ idx.columns, isSqlMember m = true → idx.name.isSome = true) →
      idx.columns.any isVectorWithoutOpclass = true →
      ∃ cn, processIndex casing tableName schema st idx
        = .error (.missingOperatorClass cn tableName))
  ∧ (∀ (casing : Option (String → String)) (tableName : String)
       (schema : Option String) (st : IndexesState) (idx : InIndex),
      (∀ m ∈ idx.columns, memberPasses idx.name m = true) →
      (∀ names, alGet st.indexesInSchema (schema.getD "public") = some names →
        jsOr idx.name (indexName tableName
          (idx.columns.map (memberColumnName casing))) ∉ names) →
      (processIndex casing tableName schema st idx).isOk = true) := by
  constructor
  · intro casing tableName schema st idx hnames hvec
    obtain ⟨cn, hcn⟩ := checkIndexMembers_vector_offender casing tableName
      idx.name idx.columns hnames hvec
    exact ⟨cn, by simp [processIndex, hcn]⟩
  · intro casing tableName schema st idx hpass hfresh
    have hok := checkIndexMembers_all_pass casing tableName idx.name
      idx.columns hpass
    simp only [processIndex, hok]
    cases halg : alGet st.indexesInSchema (schema.getD "public") with
    | none => simp [Except.isOk, Except.toBool]
    | some names =>
      have := hfresh names halg
      simp [this, Except.isOk, Except.toBool]

/-- Witness for `c5_vector_operator_class` at the concrete vector
indexes. -/
theorem c5_witness :
    (∃ cn, processIndex none "items" none ⟨[], []⟩ idxVectorNoOp
      = .error (.missingOperatorClass cn "items"))
    ∧ (processIndex none "items" none ⟨[], []⟩ idxVectorWithOp).isOk
        = true := by
  constructor
  · exact c5_vector_operator_class.1 none "items" none ⟨[], []⟩ idxVectorNoOp
      (by decide) (by decide)
  · exact c5_vector_operator_class.2 none "items" none ⟨[], []⟩
      idxVectorWithOp (by decide)
      (fun names h => by simp [alGet] at h)

/-! ## Claim C6 — auto-generated index names -/

/-- Claim C6: an index declared without a name whose members are all plain
columns (passing the vector check) resolves to
`<table>_<col1>_..._index` over the cased member names in declaration
order; an unnamed index containing a raw SQL expression member fails with
the missing-index-name error. -/
theorem c6_index_auto_name :
    (∀ (casing : Option (String → String)) (tableName : String)
       (idx : InIndex),
      idx.name = none →
      (∀ m ∈ idx.columns,
        isSqlMember m = false ∧ isVectorWithoutOpclass m = false) →
      resolvedIndexName casing tableName idx
        = .ok (indexName tableName
            (idx.columns.map (memberColumnName casing))))
  ∧ (∀ tableName cols,
      indexName tableName cols
        = tableName ++ "_" ++ sintercalate "_" cols ++ "_index")
  ∧ indexName "users" ["a", "b"] = "users_a_b_index"
  ∧ (∀ (casing : Option (String → String)) (tableName : String)
       (idx : InIndex),
      idx.name = none →
      idx.columns.any isSqlMember = true →
      (∀ m ∈ idx.columns, isVectorWithoutOpclass m = false) →
      ∃ r, resolvedIndexName casing tableName idx
        = .error (.missingIndexName tableName r)) := by
  refine ⟨?_, fun _ _ => rfl, by decide, ?_⟩
  · intro casing tableName idx hname h
    have hpass : ∀ m ∈ idx.columns, memberPasses idx.name m = true := by
      intro m hm
      obtain ⟨h1, h2⟩ := h m hm
      cases m with
      | sqlExpr r => simp [isSqlMember] at h1
      | col c =>
        simp only [isVectorWithoutOpclass] at h2
        simp [memberPasses, h2]
    have hok := checkIndexMembers_all_pass casing tableName idx.name
      idx.columns hpass
    rw [hname] at hok
    simp [resolvedIndexName, hok, hname, jsOr]
  · intro casing tableName idx hname hsql hvec
    obtain ⟨r, hr⟩ := checkIndexMembers_sql_noname casing tableName
      idx.columns hsql hvec
    exact ⟨r, by simp [resolvedIndexName, hname, hr]⟩

/-- Witness for `c6_index_auto_name` at the concrete indexes. -/
theorem c6_witness :
    resolvedIndexName none "users" idxAuto = .ok "users_a_b_index"
    ∧ ∃ r, resolvedIndexName none "users" idxSqlNoName
        = .error (.missingIndexName "users" r) := by
  constructor
  · have h := c6_index_auto_name.1 none "users" idxAuto rfl (by decide)
    exact h.trans (congrArg Except.ok (by decide))
  · exact c6_index_auto_name.2.2.2 none "users" idxSqlNoName rfl
      (by decide) (by decide)

/-! ## Claim C7 — array default literals -/

/-- Claim C7: a literal-list default on an array-typed column is encoded
as a brace-delimited, comma-joined literal; `[1,2,3]` renders as
`{1,2,3}` (single-quoted at the column level), `[[1,2],[3,4]]` as
`{{1,2},{3,4}}`; numbers render bare, booleans lowercase, strings and
objects double-quoted, and nested arrays recurse. -/
theorem c7_array_default_encoding :
    buildArrayString [.num 1, .num 2, .num 3] "integer[]" = "\x7b1,2,3\x7d"
  ∧ buildArrayString [.arr [.num 1, .num 2], .arr [.num 3, .num 4]]
      "integer[]" = "\x7b\x7b1,2\x7d,\x7b3,4\x7d\x7d"
  ∧ (((processColumn none "measurements" none ⟨[], []⟩
        colArrayDefault).toOption.bind
      (fun st => (alGet st.columnsObject "nums").map (fun c => c.defaultVal)))
      = some (some (.str (squote ++ "\x7b1,2,3\x7d" ++ squote))))
  ∧ (∀ (base : String) (ns : List Int),
      buildArrayList base (ns.map JsValue.num)
        = ns.map (fun n => toString n))
  ∧ (∀ (base : String) (bs : List Bool),
      buildArrayList base (bs.map JsValue.bool)
        = bs.map (fun b => if b then "true" else "false"))
  ∧ (∀ (base : String) (ss : List String),
      buildArrayList base (ss.map JsValue.str)
        = ss.map (fun s => "\"" ++ s ++ "\""))
  ∧ (∀ (base : String) (js : List String),
      buildArrayList base (js.map JsValue.obj)
        = js.map (fun j => "\"" ++ replaceAllChar '"' "\\\"" j ++ "\""))
  ∧ (∀ (ty : String) (xss : List (List JsValue)),
      buildArrayString (xss.map JsValue.arr) ty
        = "\x7b" ++ sintercalate ","
            (xss.map (fun xs => "\x7b" ++ sintercalate ","
              (buildArrayList (takeUntilChar '[' ty) xs) ++ "\x7d")) ++ "\x7d") := by
  refine ⟨rfl, rfl, rfl, ?_, ?_, ?_, ?_, ?_⟩
  · intro base ns
    induction ns with
    | nil => rfl
    | cons n rest ih => simp [buildArrayList, buildArrayElem, ih]
  · intro base bs
    induction bs with
    | nil => rfl
    | cons b rest ih => simp [buildArrayList, buildArrayElem, ih]
  · intro base ss
    induction ss with
    | nil => rfl
    | cons s rest ih => simp [buildArrayList, buildArrayElem, ih]
  · intro base js
    induction js with
    | nil => rfl
    | cons j rest ih => simp [buildArrayList, buildArrayElem, ih]
  · intro ty xss
    simp only [buildArrayString]
    have hlist : ∀ (l : List (List JsValue)),
        buildArrayList (takeUntilChar '[' ty) (l.map JsValue.arr)
          = l.map (fun xs => "\x7b" ++ sintercalate ","
              (buildArrayList (takeUntilChar '[' ty) xs) ++ "\x7d") := by
      intro l
      induction l with
      | nil => rfl
      | cons xs rest ih => simp [buildArrayList, buildArrayElem, ih]
    rw [hlist]

/-! ## Table-processing success analysis (shared by C3, C4, C10) -/

theorem processTable_ok_elim (cfg : Config) (rels : List InRelationConfig)
    (st : TablesState) (t : InTable) (out : TablesState)
    (h : processTable cfg rels st t = .ok out)
    (hskip : skippedByFilter cfg.schemaFilter t = false) :
    ∃ colsRes uniqueConstraintObject idxRes policiesObject checksRes,
      foldE (processColumn cfg.casing t.name t.schema)
          ⟨[], []⟩ t.columns = .ok colsRes
      ∧ foldE (processUnique cfg.casing t.name)
          colsRes.uniqueConstraintObject t.uniqueConstraints
          = .ok uniqueConstraintObject
      ∧ foldE (processIndex cfg.casing t.name t.schema)
          ⟨[], st.indexesInSchema⟩ t.indexes = .ok idxRes
      ∧ foldE (processTablePolicy (tableKeyOf t.schema t.name)) []
          t.policies = .ok policiesObject
      ∧ foldE (processCheck t.schema t.name) ⟨[], []⟩ t.checks
          = .ok checksRes
      ∧ out = { result := alInsert st.result (tableKeyOf t.schema t.name)
                  { name := t.name
                    schema := t.schema.getD ""
                    columns := colsRes.columnsObject
                    indexes := idxRes.indexesObject
                    foreignKeys := ((t.foreignKeys.map
                      (mapForeignKey cfg.casing t.name)).foldl
                        (fun m fk => alInsert m fk.name fk) [])
                    compositePrimaryKeys := (t.primaryKeys.foldl
                      (processPrimaryKey cfg.casing) [])
                    uniqueConstraints := uniqueConstraintObject
                    policies := policiesObject
                    checkConstraints := checksRes.checksObject
                    isRLSEnabled := t.enableRLS
                    relations := relationsFor rels t.name }
                indexesInSchema := idxRes.indexesInSchema } := by
  simp only [processTable, hskip, Bool.false_eq_true, if_false] at h
  split at h
  · exact absurd h (by simp)
  · next colsRes hcols =>
    split at h
    · exact absurd h (by simp)
    · next uco huco =>
      split at h
      · exact absurd h (by simp)
      · next idxRes hidx =>
        split at h
        · exact absurd h (by simp)
        · next pols hpols =>
          split at h
          · exact absurd h (by simp)
          · next checksRes hchecks =>
            exact ⟨colsRes, uco, idxRes, pols, checksRes, hcols, huco,
              hidx, hpols, hchecks, (Except.ok.injEq _ _ ▸ h).symm⟩

/-! ## Claim C10 — map key prefix vs. stored schema field -/

/-- Claim C10: a table without an explicit schema is stored under the map
key `public.<name>` while its entity's `schema` field is the empty
string; a table with an explicit schema is stored under `<schema>.<name>`
with the `schema` field agreeing. -/
theorem c10_schema_key_mismatch :
    (∀ (cfg : Config) (rels : List InRelationConfig) (st : TablesState)
       (t : InTable) (out : TablesState),
      t.schema = none →
      skippedByFilter cfg.schemaFilter t = false →
      processTable cfg rels st t = .ok out →
      ((alGet out.result ("public." ++ t.name)).map (fun e => e.schema))
        = some "")
  ∧ (∀ (cfg : Config) (rels : List InRelationConfig) (st : TablesState)
       (t : InTable) (out : TablesState) (s : String),
      t.schema = some s →
      skippedByFilter cfg.schemaFilter t = false →
      processTable cfg rels st t = .ok out →
      ((alGet out.result (s ++ "." ++ t.name)).map (fun e => e.schema))
        = some s)
  ∧ ((okSnapshot (drizzleObjectsToSnapshot objsSchemaKey cfg0)).bind
      (fun s => (alGet s.tables "public.users").map (fun t => t.schema)))
      = some ""
  ∧ ((okSnapshot (drizzleObjectsToSnapshot objsSchemaKey cfg0)).bind
      (fun s => (alGet s.tables "s1.users2").map (fun t => t.schema)))
      = some "s1"
  ∧ ("" : String) ≠ "public" := by
  refine ⟨?_, ?_, rfl, rfl, by decide⟩
  · intro cfg rels st t out hschema hskip h
    obtain ⟨colsRes, uco, idxRes, pols, checksRes, _, _, _, _, _, hout⟩ :=
      processTable_ok_elim cfg rels st t out h hskip
    subst hout
    have hkey : tableKeyOf t.schema t.name = "public." ++ t.name := by
      rw [hschema]; rfl
    rw [← hkey, alGet_alInsert_self]
    simp [hschema]
  · intro cfg rels st t out s hschema hskip h
    obtain ⟨colsRes, uco, idxRes, pols, checksRes, _, _, _, _, _, hout⟩ :=
      processTable_ok_elim cfg rels st t out h hskip
    subst hout
    have hkey : tableKeyOf t.schema t.name = s ++ "." ++ t.name := by
      rw [hschema]; rfl
    rw [← hkey, alGet_alInsert_self]
    simp [hschema]

/-- Witness for `c10_schema_key_mismatch` on a concrete schema-less
table. -/
theorem c10_witness :
    ((alGet (TablesState.result
        (match processTable cfg0 [] ⟨[], []⟩ { name := "users" } with
         | .ok out => out
         | .error _ => ⟨[], []⟩)) ("public." ++ "users")).map
      (fun e => e.schema)) = some "" := by
  have h := c10_schema_key_mismatch.1 cfg0 [] ⟨[], []⟩ { name := "users" }
    (match processTable cfg0 [] ⟨[], []⟩ { name := "users" } with
     | .ok out => out
     | .error _ => ⟨[], []⟩) rfl rfl rfl
  exact h

/-! ## Claim C9 — schema filtering is a frame property -/

/-- Claim C9: a table whose schema (or `public` when absent) is not in
the configured schema filter is skipped before anything is recorded: the
table step is the identity on the whole conversion state, and converting
an input containing that table equals converting the input with the table
removed; concretely a `tenant_a` table under a `["public"]` filter is
absent from the output tables map. -/
theorem c9_schema_filter_frame :
    (∀ (cfg : Config) (rels : List InRelationConfig) (st : TablesState)
       (t : InTable),
      skippedByFilter cfg.schemaFilter t = true →
      processTable cfg rels st t = .ok st)
  ∧ (∀ (cfg : Config) (pre post : List InTable) (t : InTable)
       (enums : List InEnum) (schemas : List InSchema)
       (sequences : List InSequence) (roles : List InRole)
       (policies : List InStandalonePolicy)
       (relations : List InRelationConfig) (f : List String),
      cfg.schemaFilter = some f →
      f.contains (t.schema.getD "public") = false →
      drizzleObjectsToSnapshot
          ⟨pre ++ t :: post, enums, schemas, sequences, roles, policies,
            relations⟩ cfg
        = drizzleObjectsToSnapshot
          ⟨pre ++ post, enums, schemas, sequences, roles, policies,
            relations⟩ cfg)
  ∧ ((okSnapshot (drizzleObjectsToSnapshot objsTenantTable cfgPublicOnly)).map
      (fun s => alGet s.tables "tenant_a.t")) = some none := by
  refine ⟨?_, ?_, rfl⟩
  · intro cfg rels st t hskip
    simp [processTable, hskip]
  · intro cfg pre post t enums schemas sequences roles policies relations f
      hf hc
    have hx : ∀ s, processTable cfg relations s t = .ok s := by
      intro s
      simp only [processTable, skippedByFilter, hf, hc]
      rfl
    simp only [drizzleObjectsToSnapshot]
    rw [foldE_skip_mid (processTable cfg relations) t hx pre post]

/-- Witness for `c9_schema_filter_frame`: removing the filtered
`tenant_a` table does not change the conversion. -/
theorem c9_witness :
    drizzleObjectsToSnapshot
        ⟨[{ name := "t", schema := some "tenant_a" }], [], [], [], [], [],
          []⟩ cfgPublicOnly
      = drizzleObjectsToSnapshot ⟨[], [], [], [], [], [], []⟩
          cfgPublicOnly := by
  have h := c9_schema_filter_frame.2.1 cfgPublicOnly []
    [] { name := "t", schema := some "tenant_a" } [] [] [] [] [] [] ["public"]
    rfl rfl
  simpa using h

/-! ## Claim C8 — unlinked standalone policies -/

theorem processPoliciesLoop_append (l1 l2 : List InStandalonePolicy) :
    ∀ (st : PoliciesState) (warns : List String),
      processPoliciesLoop st warns (l1 ++ l2)
        = (match processPoliciesLoop st warns l1 with
           | .error e => .error e
           | .ok (st', w') => processPoliciesLoop st' w' l2) := by
  induction l1 with
  | nil => intro st warns; rfl
  | cons p rest ih =>
    intro st warns
    cases hp : p.linkedTable with
    | none =>
      simp only [List.cons_append, processPoliciesLoop, hp]
      exact ih st (warns ++ [unlinkedPolicyMsg p.name])
    | some lt =>
      simp only [List.cons_append, processPoliciesLoop, hp]
      cases linkPolicy st p lt with
      | error e => rfl
      | ok st' => exact ih st' warns

theorem processPoliciesLoop_warns_shift (l : List InStandalonePolicy) :
    ∀ (st : PoliciesState) (warns : List String),
      processPoliciesLoop st warns l
        = (processPoliciesLoop st [] l).map (fun r => (r.1, warns ++ r.2)) := by
  induction l with
  | nil => intro st warns; simp [processPoliciesLoop, Except.map]
  | cons p rest ih =>
    intro st warns
    cases hp : p.linkedTable with
    | none =>
      simp only [processPoliciesLoop, hp, List.nil_append]
      rw [ih st (warns ++ [unlinkedPolicyMsg p.name]),
        ih st [unlinkedPolicyMsg p.name]]
      cases processPoliciesLoop st [] rest with
      | error e => simp [Except.map]
      | ok r => simp [Except.map]
    | some lt =>
      simp only [processPoliciesLoop, hp]
      cases linkPolicy st p lt with
      | error e => simp [Except.map]
      | ok st' => exact ih st' warns

theorem processPoliciesLoop_unlinked_fst (p : InStandalonePolicy)
    (hp : p.linkedTable = none) (pre post : List InStandalonePolicy)
    (st : PoliciesState) :
    (processPoliciesLoop st [] (pre ++ p :: post)).map (fun r => r.1)
      = (processPoliciesLoop st [] (pre ++ post)).map (fun r => r.1) := by
  rw [processPoliciesLoop_append pre (p :: post),
    processPoliciesLoop_append pre post]
  cases processPoliciesLoop st [] pre with
  | error e => simp [Except.map]
  | ok r =>
    obtain ⟨st1, w1⟩ := r
    simp only [processPoliciesLoop, hp]
    rw [processPoliciesLoop_warns_shift post st1
      (w1 ++ [unlinkedPolicyMsg p.name]),
      processPoliciesLoop_warns_shift post st1 w1]
    cases processPoliciesLoop st1 [] post with
    | error e => simp [Except.map]
    | ok r2 => simp [Except.map]

theorem processPoliciesLoop_unlinked_mem (p : InStandalonePolicy)
    (hp : p.linkedTable = none) (pre post : List InStandalonePolicy)
    (st stf : PoliciesState) (w : List String)
    (h : processPoliciesLoop st [] (pre ++ p :: post) = .ok (stf, w)) :
    unlinkedPolicyMsg p.name ∈ w := by
  rw [processPoliciesLoop_append pre (p :: post)] at h
  cases hpre : processPoliciesLoop st [] pre with
  | error e => rw [hpre] at h; exact absurd h (by simp)
  | ok r =>
    obtain ⟨st1, w1⟩ := r
    rw [hpre] at h
    simp only [processPoliciesLoop, hp] at h
    rw [processPoliciesLoop_warns_shift post st1
      (w1 ++ [unlinkedPolicyMsg p.name])] at h
    cases hpost : processPoliciesLoop st1 [] post with
    | error e => rw [hpost] at h; simp [Except.map] at h
    | ok r2 =>
      obtain ⟨st2, w2⟩ := r2
      rw [hpost] at h
      simp only [Except.map] at h
      have hw : w = w1 ++ [unlinkedPolicyMsg p.name] ++ w2 := by
        cases h; rfl
      subst hw
      simp

/-- Claim C8: a standalone policy with no linked table is skipped: the
loop records only the diagnostic and continues; the snapshot of a
conversion containing such a policy equals the one with the policy
removed, and on success the diagnostic for it is among the emitted
warnings. -/
theorem c8_unlinked_policy :
    (∀ (st : PoliciesState) (warns : List String) (p : InStandalonePolicy)
       (rest : List InStandalonePolicy),
      p.linkedTable = none →
      processPoliciesLoop st warns (p :: rest)
        = processPoliciesLoop st (warns ++ [unlinkedPolicyMsg p.name]) rest)
  ∧ (∀ (tables : List InTable) (enums : List InEnum)
       (schemas : List InSchema) (sequences : List InSequence)
       (roles : List InRole) (pre post : List InStandalonePolicy)
       (p : InStandalonePolicy) (relations : List InRelationConfig)
       (cfg : Config),
      p.linkedTable = none →
      okSnapshot (drizzleObjectsToSnapshot
          ⟨tables, enums, schemas, sequences, roles, pre ++ p :: post,
            relations⟩ cfg)
        = okSnapshot (drizzleObjectsToSnapshot
          ⟨tables, enums, schemas, sequences, roles, pre ++ post,
            relations⟩ cfg)
      ∧ (∀ snap warns,
          drizzleObjectsToSnapshot
              ⟨tables, enums, schemas, sequences, roles, pre ++ p :: post,
                relations⟩ cfg
            = .ok (snap, warns) →
          unlinkedPolicyMsg p.name ∈ warns)) := by
  constructor
  · intro st warns p rest hp
    simp [processPoliciesLoop, hp]
  · intro tables enums schemas sequences roles pre post p relations cfg hp
    constructor
    · simp only [drizzleObjectsToSnapshot]
      cases htf : foldE (processTable cfg relations)
          { result := [], indexesInSchema := [] } tables with
      | error e => simp [okSnapshot]
      | ok ts =>
        dsimp only
        have hA := processPoliciesLoop_unlinked_fst p hp pre post
          { result := ts.result, policiesToReturn := [] }
        cases h1 : processPoliciesLoop
            { result := ts.result, policiesToReturn := [] } []
            (pre ++ p :: post) with
        | error e =>
          rw [h1] at hA
          cases h2 : processPoliciesLoop
              { result := ts.result, policiesToReturn := [] } []
              (pre ++ post) with
          | error e2 => simp [okSnapshot]
          | ok r2 => rw [h2] at hA; simp [Except.map] at hA
        | ok r =>
          obtain ⟨pol, w⟩ := r
          cases h2 : processPoliciesLoop
              { result := ts.result, policiesToReturn := [] } []
              (pre ++ post) with
          | error e2 => rw [h2] at hA; rw [h1] at hA; simp [Except.map] at hA
          | ok r2 =>
            obtain ⟨pol2, w2⟩ := r2
            rw [h1, h2] at hA
            simp only [Except.map] at hA
            have : pol = pol2 := by cases hA; rfl
            subst this
            simp [okSnapshot]
    · intro snap warns heq
      simp only [drizzleObjectsToSnapshot] at heq
      split at heq
      · exact absurd heq (by simp)
      · next ts htf =>
        split at heq
        · exact absurd heq (by simp)
        · next polState warns' hloop =>
          have hw : warns' = warns := by cases heq; rfl
          subst hw
          exact processPoliciesLoop_unlinked_mem p hp pre post _ polState
            warns' hloop

/-- Witness for `c8_unlinked_policy` on the concrete unlinked policy. -/
theorem c8_witness :
    okSnapshot (drizzleObjectsToSnapshot
        ⟨[], [], [], [], [], [{ name := "lonely" }], []⟩ cfg0)
      = okSnapshot (drizzleObjectsToSnapshot
        ⟨[], [], [], [], [], [], []⟩ cfg0)
    ∧ unlinkedPolicyMsg "lonely" ∈
        [unlinkedPolicyMsg "lonely"] := by
  constructor
  · exact (c8_unlinked_policy.2 [] [] [] [] [] [] []
      { name := "lonely" } [] cfg0 rfl).1
  · have h := (c8_unlinked_policy.2 [] [] [] [] [] [] []
      { name := "lonely" } [] cfg0 rfl).2
    exact h _ [unlinkedPolicyMsg "lonely"] rfl

/-! ## Claim C1 — policy name collision scope -/

theorem processTablePolicy_fold_nodup (tableKey : String) :
    ∀ (ps : List InTablePolicy) (m out : List (String × SnapPolicy)),
      foldE (processTablePolicy tableKey) m ps = .ok out →
      (alKeys m).Nodup →
      (alKeys m ++ ps.map (fun p => p.name)).Nodup := by
  intro ps
  induction ps with
  | nil => intro m out h hm; simpa using hm
  | cons p rest ih =>
    intro m out h hm
    simp only [foldE] at h
    split at h
    · exact absurd h (by simp)
    · next st' hf =>
      cases hg : alGet m p.name with
      | some v => simp [processTablePolicy, hg] at hf
      | none =>
        have hst' : st' = alInsert m p.name
            (mkSnapPolicy p.name p.asClause p.forClause p.toRoles
              p.usingSql p.withCheckSql) := by
          simp [processTablePolicy, hg] at hf
          exact hf.symm
        subst hst'
        have hkeys := alKeys_alInsert_fresh m p.name
          (mkSnapPolicy p.name p.asClause p.forClause p.toRoles
            p.usingSql p.withCheckSql) hg
        have hnotmem : p.name ∉ alKeys m := (alGet_eq_none_iff m p.name).mp hg
        have hnodup' : (alKeys (alInsert m p.name
            (mkSnapPolicy p.name p.asClause p.forClause p.toRoles
              p.usingSql p.withCheckSql))).Nodup := by
          rw [hkeys]
          simp [List.nodup_append, hm, hnotmem]
        have hrec := ih _ out h hnodup'
        rw [hkeys] at hrec
        simp only [List.map_cons]
        rw [List.append_cons]
        simpa [List.append_assoc] using hrec

/-- Claim C1, counterexample: two tables each declaring an inline policy
named `"p"` convert successfully, and `"p"` is the policy name in both
tables' policies maps — policy names are not unique across the snapshot,
so a collision between policies of different tables does not fail. -/
theorem c1_counterexample :
    (okSnapshot (drizzleObjectsToSnapshot objsTwoTablesSamePolicy
        cfg0)).isSome = true
    ∧ ((okSnapshot (drizzleObjectsToSnapshot objsTwoTablesSamePolicy
        cfg0)).bind
      (fun s => (alGet s.tables "public.t1").map (fun t => alKeys t.policies)))
      = some ["p"]
    ∧ ((okSnapshot (drizzleObjectsToSnapshot objsTwoTablesSamePolicy
        cfg0)).bind
      (fun s => (alGet s.tables "public.t2").map (fun t => alKeys t.policies)))
      = some ["p"] := ⟨rfl, rfl, rfl⟩

/-- Claim C1, amended: policy-name collisions are detected per target
table (and among the top-level unlinked-target policies), not globally: an
inline policy whose name is already in its own table's policies map fails;
a linked standalone policy whose name is already among the linked table's
policies or the collected top-level policies fails; a successful inline
policies loop yields pairwise-distinct names within that one table; but
the same policy name on two different tables converts successfully. -/
theorem c1_policy_name_scope :
    (∀ (tableKey : String) (m : List (String × SnapPolicy))
       (p : InTablePolicy),
      (alGet m p.name).isSome = true →
      processTablePolicy tableKey m p
        = .error (.duplicatePolicyName tableKey p.name))
  ∧ (∀ (st : PoliciesState) (p : InStandalonePolicy) (lt : InLinkedTable),
      ((((alGet st.result (tableKeyOf lt.schema lt.name)).bind
          (fun t => alGet t.policies p.name)).isSome = true)
        ∨ (alGet st.policiesToReturn p.name).isSome = true) →
      linkPolicy st p lt
        = .error (.duplicatePolicyName (tableKeyOf lt.schema lt.name)
            p.name))
  ∧ (∀ (tableKey : String) (ps : List InTablePolicy)
       (out : List (String × SnapPolicy)),
      foldE (processTablePolicy tableKey) [] ps = .ok out →
      (ps.map (fun p => p.name)).Nodup)
  ∧ (okSnapshot (drizzleObjectsToSnapshot objsTwoTablesSamePolicy
      cfg0)).isSome = true := by
  refine ⟨?_, ?_, ?_, rfl⟩
  · intro tableKey m p h
    obtain ⟨v, hv⟩ := Option.isSome_iff_exists.mp h
    simp [processTablePolicy, hv]
  · intro st p lt h
    have hb : (((alGet st.result (tableKeyOf lt.schema lt.name)).bind
          (fun t => alGet t.policies p.name)).isSome
        || (alGet st.policiesToReturn p.name).isSome) = true := by
      rcases h with h | h <;> simp [h]
    simp [linkPolicy, hb]
  · intro tableKey ps out h
    have hres := processTablePolicy_fold_nodup tableKey ps [] out h
      (by simp [alKeys])
    simpa [alKeys] using hres

/-- Witness for `c1_policy_name_scope` at concrete collision states. -/
theorem c1_witness :
    processTablePolicy "public.t1"
        [("p", mkSnapPolicy "p" none none none none none)] policyP
      = .error (.duplicatePolicyName "public.t1" "p")
    ∧ linkPolicy
        { result := []
          policiesToReturn :=
            [("p", { policy := mkSnapPolicy "p" none none none none none
                     schema := "public"
                     onTable := "t" })] }
        { name := "p" } { name := "t1" }
      = .error (.duplicatePolicyName (tableKeyOf none "t1") "p") := by
  constructor
  · exact c1_policy_name_scope.1 "public.t1"
      [("p", mkSnapPolicy "p" none none none none none)] policyP rfl
  · exact c1_policy_name_scope.2.1
      { result := []
        policiesToReturn :=
          [("p", { policy := mkSnapPolicy "p" none none none none none
                   schema := "public"
                   onTable := "t" })] }
      { name := "p" } { name := "t1" } (Or.inr rfl)

/-! ## Claim C4 — duplicate unique-constraint names within a table -/

theorem processColumn_ok_uco (casing : Option (String → String))
    (tableName : String) (schema : Option String) (st : ColumnsState)
    (c : InColumn) (st' : ColumnsState)
    (h : processColumn casing tableName schema st c = .ok st') :
    (c.isUnique = true →
      alGet st.uniqueConstraintObject (columnUniqueKey c) = none
      ∧ alKeys st'.uniqueConstraintObject
          = alKeys st.uniqueConstraintObject ++ [columnUniqueKey c])
    ∧ (c.isUnique = false →
      st'.uniqueConstraintObject = st.uniqueConstraintObject) := by
  constructor
  · intro hu
    simp only [processColumn, hu, if_true] at h
    cases hg : alGet st.uniqueConstraintObject (c.uniqueName.getD "undefined")
      with
    | some v => rw [hg] at h; exact absurd h (by simp)
    | none =>
      rw [hg] at h
      have hst' : st'.uniqueConstraintObject
          = alInsert st.uniqueConstraintObject (c.uniqueName.getD "undefined")
              { name := c.uniqueName
                nullsNotDistinct := c.uniqueType = some "not distinct"
                columns := [getColumnCasing casing c.name] } := by
        cases hd : c.defaultVal <;> rw [hd] at h <;> cases h <;> rfl
      refine ⟨hg, ?_⟩
      rw [hst']
      exact alKeys_alInsert_fresh _ _ _ hg
  · intro hu
    simp only [processColumn, hu, Bool.false_eq_true, if_false] at h
    cases hd : c.defaultVal <;> rw [hd] at h <;> cases h <;> rfl

theorem processColumns_fold_keys (casing : Option (String → String))
    (tableName : String) (schema : Option String) :
    ∀ (cols : List InColumn) (st out : ColumnsState),
      foldE (processColumn casing tableName schema) st cols = .ok out →
      (alKeys st.uniqueConstraintObject).Nodup →
      alKeys out.uniqueConstraintObject
          = alKeys st.uniqueConstraintObject
            ++ (cols.filter (·.isUnique)).map columnUniqueKey
      ∧ (alKeys out.uniqueConstraintObject).Nodup := by
  intro cols
  induction cols with
  | nil =>
    intro st out h hm
    simp only [foldE] at h
    cases h
    simp [hm]
  | cons c rest ih =>
    intro st out h hm
    simp only [foldE] at h
    split at h
    · exact absurd h (by simp)
    · next st' hf =>
      have hcu := processColumn_ok_uco casing tableName schema st c st' hf
      by_cases hu : c.isUnique = true
      · obtain ⟨hg, hkeys⟩ := hcu.1 hu
        have hnotmem := (alGet_eq_none_iff _ _).mp hg
        have hnodup' : (alKeys st'.uniqueConstraintObject).Nodup := by
          rw [hkeys]
          simp [List.nodup_append, hm, hnotmem]
        obtain ⟨ihkeys, ihnodup⟩ := ih st' out h hnodup'
        refine ⟨?_, ihnodup⟩
        rw [ihkeys, hkeys, List.filter_cons]
        simp [hu, List.append_assoc]
      · have hne : c.isUnique = false := by simpa using hu
        have heq := hcu.2 hne
        obtain ⟨ihkeys, ihnodup⟩ := ih st' out h (by rw [heq]; exact hm)
        refine ⟨?_, ihnodup⟩
        rw [ihkeys, heq, List.filter_cons]
        simp [hne]

theorem processUniques_fold_nodup (casing : Option (String → String))
    (tableName : String) :
    ∀ (us : List InUnique) (m out : List (String × SnapUnique)),
      foldE (processUnique casing tableName) m us = .ok out →
      (alKeys m).Nodup →
      (alKeys m ++ us.map (uniqueConstraintKey casing tableName)).Nodup := by
  intro us
  induction us with
  | nil => intro m out h hm; simpa using hm
  | cons u rest ih =>
    intro m out h hm
    simp only [foldE] at h
    split at h
    · exact absurd h (by simp)
    · next m' hf =>
      simp only [processUnique] at hf
      cases hg : alGet m
          (u.name.getD (uniqueKeyName tableName
            (u.columns.map (getColumnCasing casing)))) with
      | some v =>
        rw [hg] at hf
        exact absurd hf (by simp)
      | none =>
        rw [hg] at hf
        have hg' : alGet m (uniqueConstraintKey casing tableName u) = none :=
          hg
        have hm' : m' = alInsert m (uniqueConstraintKey casing tableName u)
            { name := u.name
              nullsNotDistinct := u.nullsNotDistinct
              columns := u.columns.map (getColumnCasing casing) } := by
          cases hf
          rfl
        subst hm'
        have hkeys := alKeys_alInsert_fresh m
          (uniqueConstraintKey casing tableName u)
          { name := u.name
            nullsNotDistinct := u.nullsNotDistinct
            columns := u.columns.map (getColumnCasing casing) } hg'
        have hnotmem := (alGet_eq_none_iff _ _).mp hg'
        have hnodup' : (alKeys (alInsert m
            (uniqueConstraintKey casing tableName u)
            { name := u.name
              nullsNotDistinct := u.nullsNotDistinct
              columns := u.columns.map (getColumnCasing casing) })).Nodup := by
          rw [hkeys]
          simp [List.nodup_append, hm, hnotmem]
        have hrec := ih _ out h hnodup'
        rw [hkeys] at hrec
        simp only [List.map_cons]
        rw [List.append_cons]
        simpa [List.append_assoc] using hrec

theorem processTable_unique_nodup (cfg : Config)
    (rels : List InRelationConfig) (st : TablesState) (t : InTable)
    (out : TablesState) (h : processTable cfg rels st t = .ok out)
    (hskip : skippedByFilter cfg.schemaFilter t = false) :
    (tableUniqueNames cfg.casing t).Nodup := by
  obtain ⟨colsRes, uco, idxRes, pols, checksRes, hcols, huco, _, _, _, _⟩ :=
    processTable_ok_elim cfg rels st t out h hskip
  obtain ⟨hkeys, hnodup⟩ := processColumns_fold_keys cfg.casing t.name
    t.schema t.columns ⟨[], []⟩ colsRes hcols (by simp [alKeys])
  have h2 := processUniques_fold_nodup cfg.casing t.name t.uniqueConstraints
    colsRes.uniqueConstraintObject uco huco hnodup
  rw [hkeys] at h2
  simpa [tableUniqueNames, alKeys] using h2

/-- Claim C4: a column-level unique constraint whose resolved name is
already registered for the table fails at that column; a declared unique
constraint whose resolved name is already registered fails at that
constraint; and whenever any table of the input has two unique
constraints resolving to the same name, the whole conversion returns no
snapshot. -/
theorem c4_duplicate_unique_constraints :
    (∀ (casing : Option (String → String)) (tableName : String)
       (schema : Option String) (st : ColumnsState) (c : InColumn),
      c.isUnique = true →
      (alGet st.uniqueConstraintObject (columnUniqueKey c)).isSome = true →
      processColumn casing tableName schema st c
        = .error (.duplicateUniqueConstraint tableName (columnUniqueKey c)))
  ∧ (∀ (casing : Option (String → String)) (tableName : String)
       (m : List (String × SnapUnique)) (u : InUnique),
      (alGet m (uniqueConstraintKey casing tableName u)).isSome = true →
      processUnique casing tableName m u
        = .error (.duplicateUniqueConstraint tableName
            (uniqueConstraintKey casing tableName u)))
  ∧ (∀ (cfg : Config) (objs : DrizzleObjects) (t : InTable),
      t ∈ objs.tables →
      skippedByFilter cfg.schemaFilter t = false →
      ¬ (tableUniqueNames cfg.casing t).Nodup →
      (drizzleObjectsToSnapshot objs cfg).isOk = false) := by
  refine ⟨?_, ?_, ?_⟩
  · intro casing tableName schema st c hu h
    obtain ⟨v, hv⟩ := Option.isSome_iff_exists.mp h
    simp only [columnUniqueKey] at hv
    simp [processColumn, hu, hv, columnUniqueKey]
  · intro casing tableName m u h
    obtain ⟨v, hv⟩ := Option.isSome_iff_exists.mp h
    simp only [uniqueConstraintKey] at hv
    simp [processUnique, hv, uniqueConstraintKey]
  · intro cfg objs t ht hskip hdup
    cases htf : foldE (processTable cfg objs.relations)
        { result := [], indexesInSchema := [] } objs.tables with
    | error e => simp [drizzleObjectsToSnapshot, htf, Except.isOk,
        Except.toBool]
    | ok ts =>
      obtain ⟨l1, l2, hsplit⟩ := List.append_of_mem ht
      rw [hsplit] at htf
      obtain ⟨st1, st2, _, hf, _⟩ := foldE_ok_split _ l1 t l2 _ ts htf
      exact absurd (processTable_unique_nodup cfg objs.relations st1 t st2
        hf hskip) hdup

/-- Witness for `c4_duplicate_unique_constraints`: the concrete table with
two unique constraints both named `users_email_unique` aborts the whole
conversion. -/
theorem c4_witness :
    (drizzleObjectsToSnapshot objsDupUnique cfg0).isOk = false := by
  exact c4_duplicate_unique_constraints.2.2 cfg0 objsDupUnique
    tableDupUnique (List.mem_singleton_self _) rfl (by decide)

/-! ## Claim C3 — index names are unique per schema -/

theorem regLE_refl (r : List (String × List String)) : regLE r r :=
  fun _ _ h => h

theorem regLE_trans {a b c : List (String × List String)}
    (h1 : regLE a b) (h2 : regLE b c) : regLE a c :=
  fun sk n h => h2 sk n (h1 sk n h)

theorem lookupNames_alInsert_self (reg : List (String × List String))
    (sk : String) (ns : List String) :
    lookupNames (alInsert reg sk ns) sk = ns := by
  simp [lookupNames, alGet_alInsert_self]

theorem lookupNames_alInsert_ne (reg : List (String × List String))
    (sk sk' : String) (ns : List String) (h : sk' ≠ sk) :
    lookupNames (alInsert reg sk ns) sk' = lookupNames reg sk' := by
  simp [lookupNames, alGet_alInsert_ne _ _ _ _ h]

theorem processIndex_ok_elim (casing : Option (String → String))
    (tableName : String) (schema : Option String) (st : IndexesState)
    (idx : InIndex) (st' : IndexesState)
    (h : processIndex casing tableName schema st idx = .ok st') :
    ∃ names,
      checkIndexMembers casing tableName idx.name idx.columns = .ok names
      ∧ jsOr idx.name (indexName tableName names)
          ∉ lookupNames st.indexesInSchema (schema.getD "public")
      ∧ st'.indexesInSchema
          = alInsert st.indexesInSchema (schema.getD "public")
              (lookupNames st.indexesInSchema (schema.getD "public")
                ++ [jsOr idx.name (indexName tableName names)]) := by
  simp only [processIndex] at h
  split at h
  · exact absurd h (by simp)
  · next names hc =>
    refine ⟨names, hc, ?_⟩
    split at h
    · next ns halg =>
      split at h
      · exact absurd h (by simp)
      · next hnm =>
        cases h
        constructor
        · simp [lookupNames, halg, hnm]
        · simp [lookupNames, halg]
    · next halg =>
      cases h
      constructor
      · simp [lookupNames, halg]
      · simp [lookupNames, halg]

theorem processIndex_resolved_facts (casing : Option (String → String))
    (tableName : String) (schema : Option String) (st : IndexesState)
    (idx : InIndex) (st' : IndexesState) (n : String)
    (h : processIndex casing tableName schema st idx = .ok st')
    (hn : resolvedIndexName casing tableName idx = .ok n) :
    n ∈ lookupNames st'.indexesInSchema (schema.getD "public")
    ∧ n ∉ lookupNames st.indexesInSchema (schema.getD "public") := by
  obtain ⟨names, hc, hfr, hreg⟩ :=
    processIndex_ok_elim casing tableName schema st idx st' h
  have hn' : n = jsOr idx.name (indexName tableName names) := by
    simp only [resolvedIndexName, hc] at hn
    cases hn
    rfl
  subst hn'
  refine ⟨?_, hfr⟩
  rw [hreg, lookupNames_alInsert_self]
  simp

theorem processIndex_regLE (casing : Option (String → String))
    (tableName : String) (schema : Option String) (st : IndexesState)
    (idx : InIndex) (st' : IndexesState)
    (h : processIndex casing tableName schema st idx = .ok st') :
    regLE st.indexesInSchema st'.indexesInSchema := by
  obtain ⟨names, hc, hfr, hreg⟩ :=
    processIndex_ok_elim casing tableName schema st idx st' h
  intro sk' n' hmem
  by_cases hsk : sk' = schema.getD "public"
  · subst hsk
    rw [hreg, lookupNames_alInsert_self]
    exact List.mem_append_left _ hmem
  · rw [hreg, lookupNames_alInsert_ne _ _ _ _ hsk]
    exact hmem

theorem foldE_processIndex_regLE (casing : Option (String → String))
    (tableName : String) (schema : Option String) (l : List InIndex)
    (st out : IndexesState)
    (h : foldE (processIndex casing tableName schema) st l = .ok out) :
    regLE st.indexesInSchema out.indexesInSchema :=
  foldE_growth _ (fun a b => regLE a.indexesInSchema b.indexesInSchema)
    (fun _ => regLE_refl _)
    (fun a b c (h1 : regLE a.indexesInSchema b.indexesInSchema)
      (h2 : regLE b.indexesInSchema c.indexesInSchema) =>
        regLE_trans h1 h2)
    (fun s a s' hf =>
      processIndex_regLE casing tableName schema s a s' hf) l st out h

theorem processTable_regLE (cfg : Config) (rels : List InRelationConfig)
    (st : TablesState) (t : InTable) (out : TablesState)
    (h : processTable cfg rels st t = .ok out) :
    regLE st.indexesInSchema out.indexesInSchema := by
  by_cases hskip : skippedByFilter cfg.schemaFilter t = true
  · simp only [processTable, hskip, if_true] at h
    cases h
    exact regLE_refl _
  · have hskip' : skippedByFilter cfg.schemaFilter t = false := by
      simpa using hskip
    obtain ⟨colsRes, uco, idxRes, pols, checksRes, _, _, hidx, _, _, hout⟩ :=
      processTable_ok_elim cfg rels st t out h hskip'
    subst hout
    exact foldE_processIndex_regLE cfg.casing t.name t.schema t.indexes
      ⟨[], st.indexesInSchema⟩ idxRes hidx

theorem foldE_processTable_regLE (cfg : Config)
    (rels : List InRelationConfig) (l : List InTable)
    (st out : TablesState)
    (h : foldE (processTable cfg rels) st l = .ok out) :
    regLE st.indexesInSchema out.indexesInSchema :=
  foldE_growth _ (fun a b => regLE a.indexesInSchema b.indexesInSchema)
    (fun _ => regLE_refl _)
    (fun a b c (h1 : regLE a.indexesInSchema b.indexesInSchema)
      (h2 : regLE b.indexesInSchema c.indexesInSchema) =>
        regLE_trans h1 h2)
    (fun s a s' hf => processTable_regLE cfg rels s a s' hf) l st out h

theorem processTable_index_facts (cfg : Config)
    (rels : List InRelationConfig) (st : TablesState) (t : InTable)
    (out : TablesState) (i : InIndex) (n : String)
    (h : processTable cfg rels st t = .ok out)
    (hskip : skippedByFilter cfg.schemaFilter t = false)
    (hi : i ∈ t.indexes)
    (hn : resolvedIndexName cfg.casing t.name i = .ok n) :
    n ∈ lookupNames out.indexesInSchema (schemaKeyOf t)
    ∧ n ∉ lookupNames st.indexesInSchema (schemaKeyOf t) := by
  obtain ⟨colsRes, uco, idxRes, pols, checksRes, _, _, hidx, _, _, hout⟩ :=
    processTable_ok_elim cfg rels st t out h hskip
  subst hout
  obtain ⟨l1, l2, hsplit⟩ := List.append_of_mem hi
  rw [hsplit] at hidx
  obtain ⟨s1, s2, hpre, hstep, hpost⟩ :=
    foldE_ok_split _ l1 i l2 _ idxRes hidx
  obtain ⟨hmem2, hfresh2⟩ := processIndex_resolved_facts cfg.casing t.name
    t.schema s1 i s2 n hstep hn
  constructor
  · exact foldE_processIndex_regLE cfg.casing t.name t.schema l2 s2 idxRes
      hpost _ _ hmem2
  · intro hmem0
    exact hfresh2 (foldE_processIndex_regLE cfg.casing t.name t.schema l1
      ⟨[], st.indexesInSchema⟩ s1 hpre _ _ hmem0)

/-- Claim C3: two indexes resolving to the same name within one
PostgreSQL schema — whether on different tables or on the same table —
abort the conversion (no snapshot is produced); the offending index step
itself raises the duplicate-index-name error; and the same index name in
two different schemas converts successfully with both indexes present. -/
theorem c3_duplicate_index_names :
    (∀ (cfg : Config) (objs : DrizzleObjects) (pre mid post : List InTable)
       (t1 t2 : InTable) (i1 i2 : InIndex) (n : String),
      objs.tables = pre ++ t1 :: (mid ++ t2 :: post) →
      skippedByFilter cfg.schemaFilter t1 = false →
      skippedByFilter cfg.schemaFilter t2 = false →
      schemaKeyOf t1 = schemaKeyOf t2 →
      i1 ∈ t1.indexes → i2 ∈ t2.indexes →
      resolvedIndexName cfg.casing t1.name i1 = .ok n →
      resolvedIndexName cfg.casing t2.name i2 = .ok n →
      (drizzleObjectsToSnapshot objs cfg).isOk = false)
  ∧ (∀ (cfg : Config) (objs : DrizzleObjects) (t : InTable)
       (l1 l2 l3 : List InIndex) (i1 i2 : InIndex) (n : String),
      t ∈ objs.tables →
      t.indexes = l1 ++ i1 :: (l2 ++ i2 :: l3) →
      skippedByFilter cfg.schemaFilter t = false →
      resolvedIndexName cfg.casing t.name i1 = .ok n →
      resolvedIndexName cfg.casing t.name i2 = .ok n →
      (drizzleObjectsToSnapshot objs cfg).isOk = false)
  ∧ (∀ (casing : Option (String → String)) (tableName : String)
       (schema : Option String) (st : IndexesState) (idx : InIndex)
       (names ns : List String),
      checkIndexMembers casing tableName idx.name idx.columns = .ok names →
      alGet st.indexesInSchema (schema.getD "public") = some ns →
      jsOr idx.name (indexName tableName names) ∈ ns →
      processIndex casing tableName schema st idx
        = .error (.duplicateIndexName (schema.getD "public") tableName))
  ∧ ((okSnapshot (drizzleObjectsToSnapshot objsSameIndexTwoSchemas
      cfg0)).bind
      (fun s => (alGet s.tables "s1.t1").map (fun t => alKeys t.indexes)))
      = some ["idx1"]
  ∧ ((okSnapshot (drizzleObjectsToSnapshot objsSameIndexTwoSchemas
      cfg0)).bind
      (fun s => (alGet s.tables "s2.t2").map (fun t => alKeys t.indexes)))
      = some ["idx1"] := by
  refine ⟨?_, ?_, ?_, rfl, rfl⟩
  · intro cfg objs pre mid post t1 t2 i1 i2 n htables hskip1 hskip2 hsk
      hi1 hi2 hn1 hn2
    cases htf : foldE (processTable cfg objs.relations)
        { result := [], indexesInSchema := [] } objs.tables with
    | error e =>
      simp [drizzleObjectsToSnapshot, htf, Except.isOk, Except.toBool]
    | ok ts =>
      exfalso
      rw [htables] at htf
      obtain ⟨s1, s2, hpre, hstep1, hpost1⟩ :=
        foldE_ok_split _ pre t1 (mid ++ t2 :: post) _ ts htf
      obtain ⟨sM, sM2, hmid, hstep2, _⟩ :=
        foldE_ok_split _ mid t2 post _ ts hpost1
      have hfacts1 := processTable_index_facts cfg objs.relations s1 t1 s2
        i1 n hstep1 hskip1 hi1 hn1
      have hgmid := foldE_processTable_regLE cfg objs.relations mid s2 sM
        hmid
      have hmemM : n ∈ lookupNames sM.indexesInSchema (schemaKeyOf t2) := by
        rw [← hsk]
        exact hgmid _ _ hfacts1.1
      have hfacts2 := processTable_index_facts cfg objs.relations sM t2 sM2
        i2 n hstep2 hskip2 hi2 hn2
      exact hfacts2.2 hmemM
  · intro cfg objs t l1 l2 l3 i1 i2 n ht hidxsplit hskip hn1 hn2
    cases htf : foldE (processTable cfg objs.relations)
        { result := [], indexesInSchema := [] } objs.tables with
    | error e =>
      simp [drizzleObjectsToSnapshot, htf, Except.isOk, Except.toBool]
    | ok ts =>
      exfalso
      obtain ⟨tl1, tl2, hsplit⟩ := List.append_of_mem ht
      rw [hsplit] at htf
      obtain ⟨s1, s2, _, hstep, _⟩ := foldE_ok_split _ tl1 t tl2 _ ts htf
      obtain ⟨colsRes, uco, idxRes, pols, checksRes, _, _, hidx, _, _,
        hout⟩ := processTable_ok_elim cfg objs.relations s1 t s2 hstep hskip
      rw [hidxsplit] at hidx
      obtain ⟨u1, u2, hq1, hqstep1, hqpost1⟩ :=
        foldE_ok_split _ l1 i1 (l2 ++ i2 :: l3) _ idxRes hidx
      obtain ⟨uM, uM2, hq2, hqstep2, _⟩ :=
        foldE_ok_split _ l2 i2 l3 _ idxRes hqpost1
      obtain ⟨hmem1, _⟩ := processIndex_resolved_facts cfg.casing t.name
        t.schema u1 i1 u2 n hqstep1 hn1
      have hgrow := foldE_processIndex_regLE cfg.casing t.name t.schema l2
        u2 uM hq2
      obtain ⟨_, hfresh2⟩ := processIndex_resolved_facts cfg.casing t.name
        t.schema uM i2 uM2 n hqstep2 hn2
      exact hfresh2 (hgrow _ _ hmem1)
  · intro casing tableName schema st idx names ns hc halg hmem
    simp only [processIndex, hc, halg]
    rw [if_pos hmem]

/-- Witness for `c3_duplicate_index_names`: the same name `"idx1"` on two
`public`-schema tables aborts the conversion. -/
theorem c3_witness :
    (drizzleObjectsToSnapshot objsSameIndexOneSchema cfg0).isOk = false := by
  exact c3_duplicate_index_names.1 cfg0 objsSameIndexOneSchema [] [] []
    { name := "t1", indexes := [idxNamed] }
    { name := "t2", indexes := [idxNamed] } idxNamed idxNamed "idx1"
    rfl rfl rfl rfl (List.mem_singleton_self _) (List.mem_singleton_self _)
    rfl rfl

end DrizzleSnapshot
